import Mathlib

/-! # Product CRUD service: repository, service and handler layers

A shallow embedding of `internal/domain/product.go`, `internal/product/repository.go`,
`internal/product/service.go`, the handlers of `cmd/server/handler/product.go`, the token
middleware of `cmd/server/middleware/middleware.go` and the protected route group of
`cmd/main.go`, followed by theorems about them.

Modelling conventions:

* Go `int` fields (`Id`, `Quantity`) are `Int`. The only arithmetic in the code is
  `len(r.productList) + 1`; a slice length is far below `2^63 - 1`, so no wrap-around is
  reachable and the sum is the mathematical one.
* The `float64` field `Price` is `ℚ`: prices come from JSON numbers, which decode to finite
  floats, every finite float is a rational, and the only operations the code applies to a price
  are copying and the comparison `>`, which on finite floats agrees with the order of `ℚ`.
  The bound of a price search comes from `strconv.ParseFloat`, which also returns infinities
  and NaN; it is a `Float64`.
* The handlers take the library functions `strconv.Atoi` and `strconv.ParseFloat` and the
  clock-reading `validateDate` through an `Env` record; `strconv.Atoi` and `validateDate` are
  also embedded on their own, for a platform whose `int` has 64 bits.
* A Go `error` is represented by its message (`err.Error()`), which is what the handlers compare.
* The mutable receiver `*RepositoryImpl` is passed explicitly: every method returns its result
  together with the repository after the call.
-/

namespace ProductApi

/-! ## internal/domain/product.go -/

/-- The record `domain.Product`. -/
structure Product where
  Id : Int
  Name : String
  Quantity : Int
  CodeValue : String
  IsPublished : Bool
  Expiration : String
  Price : ℚ
deriving DecidableEq

/-- The record `domain.ProductRequest`: the body of a partial update. A key left out of the
JSON body leaves the Go zero value in its field. -/
structure ProductRequest where
  Name : String
  Quantity : Int
  CodeValue : String
  IsPublished : Bool
  Expiration : String
  Price : ℚ
deriving DecidableEq

/-- The Go zero value `domain.Product{}`. -/
def Product.zero : Product :=
  { Id := 0, Name := "", Quantity := 0, CodeValue := "", IsPublished := false,
    Expiration := "", Price := 0 }

/-! ## internal/product/repository.go -/

deriving instance DecidableEq for Except

/-- The message of `ErrNotFound = errors.New("product not found")`. -/
def ErrNotFound : String := "product not found"

/-- The message of `ErrInvalidCode = errors.New("invalid product code value")`. -/
def ErrInvalidCode : String := "invalid product code value"

/-- The struct `RepositoryImpl`: the in-memory ordered collection. -/
structure RepositoryImpl where
  productList : List Product
deriving DecidableEq

/-- The constructor `NewRepository`. -/
def NewRepository (productList : List Product) : RepositoryImpl :=
  { productList := productList }

/-- The loop of `validateCodeValue`: `false` at the first record carrying `codeValue`,
`true` when the range is exhausted. -/
def validateCodeValueLoop (codeValue : String) : List Product → Bool
  | [] => true
  | product :: rest =>
    if product.CodeValue = codeValue then false else validateCodeValueLoop codeValue rest

/-- The method `RepositoryImpl.validateCodeValue`. -/
def RepositoryImpl.validateCodeValue (r : RepositoryImpl) (codeValue : String) : Bool :=
  validateCodeValueLoop codeValue r.productList

/-- The method `RepositoryImpl.GetAll`. -/
def RepositoryImpl.GetAll (r : RepositoryImpl) : List Product :=
  r.productList

/-- The loop of `GetById`: the first record whose `Id` is `id`, else `ErrNotFound`. -/
def getByIdLoop (id : Int) : List Product → Except String Product
  | [] => .error ErrNotFound
  | product :: rest => if product.Id = id then .ok product else getByIdLoop id rest

/-- The method `RepositoryImpl.GetById` (it does not write to the receiver). -/
def RepositoryImpl.GetById (r : RepositoryImpl) (id : Int) : Except String Product :=
  getByIdLoop id r.productList

/-- A `float64` that need not be finite: the bound of a price search. -/
inductive Float64 where
  | finite (value : ℚ)
  | posInf
  | negInf
  | nan
deriving DecidableEq

/-- The comparison `product.Price > price` between a stored price and a bound: the order of
the rationals on finite bounds, every price above minus infinity, none above plus infinity,
and `false` against NaN. -/
def priceGreater (productPrice : ℚ) : Float64 → Bool
  | .finite price => decide (productPrice > price)
  | .posInf => false
  | .negInf => true
  | .nan => false

/-- The loop of `GetByPriceGt`: `filteredProducts` grows by `append` at each record whose
price is greater than the bound. -/
def getByPriceGtLoop (price : Float64) : List Product → List Product → List Product
  | filteredProducts, [] => filteredProducts
  | filteredProducts, product :: rest =>
    if priceGreater product.Price price then
      getByPriceGtLoop price (filteredProducts ++ [product]) rest
    else getByPriceGtLoop price filteredProducts rest

/-- The method `RepositoryImpl.GetByPriceGt` (it does not write to the receiver). -/
def RepositoryImpl.GetByPriceGt (r : RepositoryImpl) (price : Float64) : List Product :=
  getByPriceGtLoop price [] r.productList

/-- The method `RepositoryImpl.Create`. -/
def RepositoryImpl.Create (r : RepositoryImpl) (product : Product) :
    Except String Product × RepositoryImpl :=
  if !r.validateCodeValue product.CodeValue then
    (.error ErrInvalidCode, r)
  else
    let product := { product with Id := (r.productList.length : Int) + 1 }
    (.ok product, { productList := r.productList ++ [product] })

/-- The scan `for i, product := range r.productList { if product.Id == id { ... } }` that
`Update` and `Delete` share: the index and the record of the first match, counting from `i`. -/
def rangeById (id : Int) : List Product → Nat → Option (Nat × Product)
  | [], _ => none
  | product :: rest, i => if product.Id = id then some (i, product) else rangeById id rest (i + 1)

/-- The method `RepositoryImpl.Update`. -/
def RepositoryImpl.Update (r : RepositoryImpl) (id : Int) (updatedProduct : Product) :
    Except String Product × RepositoryImpl :=
  match rangeById id r.productList 0 with
  | some (i, product) =>
    if !r.validateCodeValue updatedProduct.CodeValue
        && product.CodeValue != updatedProduct.CodeValue then
      (.error ErrInvalidCode, r)
    else
      let updatedProduct := { updatedProduct with Id := id }
      (.ok updatedProduct, { productList := r.productList.set i updatedProduct })
  | none => (.error ErrNotFound, r)

/-- The method `RepositoryImpl.Delete`; `none` is the `nil` error. The new slice is
`append(r.productList[:i], r.productList[i+1:]...)`. -/
def RepositoryImpl.Delete (r : RepositoryImpl) (id : Int) : Option String × RepositoryImpl :=
  match rangeById id r.productList 0 with
  | some (i, _) =>
    (none, { productList := r.productList.take i ++ r.productList.drop (i + 1) })
  | none => (some ErrNotFound, r)

/-! ## internal/product/service.go

`ServiceImpl` holds nothing but its repository, so the service methods take the repository
as their state. -/

/-- The method `ServiceImpl.GetAll`. -/
def ServiceImpl.GetAll (r : RepositoryImpl) : List Product :=
  r.GetAll

/-- The method `ServiceImpl.GetById`. -/
def ServiceImpl.GetById (r : RepositoryImpl) (id : Int) : Except String Product :=
  match r.GetById id with
  | .error err => .error err
  | .ok product => .ok product

/-- The message of `errors.New("no products found")` in `ServiceImpl.GetByPriceGt`. -/
def ErrNoProducts : String := "no products found"

/-- The method `ServiceImpl.GetByPriceGt`. -/
def ServiceImpl.GetByPriceGt (r : RepositoryImpl) (price : Float64) :
    Except String (List Product) :=
  let products := r.GetByPriceGt price
  if products.length = 0 then .error ErrNoProducts else .ok products

/-- The method `ServiceImpl.Create`. -/
def ServiceImpl.Create (r : RepositoryImpl) (product : Product) :
    Except String Product × RepositoryImpl :=
  match r.Create product with
  | (.error err, r') => (.error err, r')
  | (.ok newProduct, r') => (.ok newProduct, r')

/-- The field-by-field merge in the middle of `ServiceImpl.Update`: `product` is the stored
record, `newProductData` the payload. -/
def mergeProduct (product newProductData : Product) : Product :=
  let product := if newProductData.Name ≠ "" then
    { product with Name := newProductData.Name } else product
  let product := if newProductData.Quantity > 0 then
    { product with Quantity := newProductData.Quantity } else product
  let product := if newProductData.CodeValue ≠ "" then
    { product with CodeValue := newProductData.CodeValue } else product
  let product := if newProductData.Expiration ≠ "" then
    { product with Expiration := newProductData.Expiration } else product
  let product := if newProductData.Price > 0 then
    { product with Price := newProductData.Price } else product
  { product with IsPublished := newProductData.IsPublished }

/-- The method `ServiceImpl.Update`. -/
def ServiceImpl.Update (r : RepositoryImpl) (id : Int) (newProductData : Product) :
    Except String Product × RepositoryImpl :=
  match r.GetById id with
  | .error err => (.error err, r)
  | .ok product =>
    match r.Update id (mergeProduct product newProductData) with
    | (.error err, r') => (.error err, r')
    | (.ok updatedProduct, r') => (.ok updatedProduct, r')

/-- The method `ServiceImpl.Delete`. -/
def ServiceImpl.Delete (r : RepositoryImpl) (id : Int) : Option String × RepositoryImpl :=
  match r.Delete id with
  | (some err, r') => (some err, r')
  | (none, r') => (none, r')

/-! ## pkg/web/response.go -/

/-- The JSON document of a response: `web.Response` around a product, around a list of
products or around `nil`, or `web.ErrorResponse`. -/
inductive Body where
  | data (product : Product)
  | dataList (products : List Product)
  | dataNil
  | failure (status : Nat) (code : String) (message : String)
deriving DecidableEq

/-- What `c.JSON(status, body)` sends. -/
structure HttpResponse where
  status : Nat
  body : Body
deriving DecidableEq

/-- The texts of the library function `http.StatusText` for the statuses this service sends. -/
def StatusText : Nat → String
  | 200 => "OK"
  | 201 => "Created"
  | 204 => "No Content"
  | 400 => "Bad Request"
  | 401 => "Unauthorized"
  | 404 => "Not Found"
  | _ => ""

/-- The function `web.Success`. -/
def web.Success (status : Nat) (data : Body) : HttpResponse :=
  { status := status, body := data }

/-- The function `web.Failure`; `err` is the message of the error. -/
def web.Failure (status : Nat) (err : String) : HttpResponse :=
  { status := status, body := .failure status (StatusText status) err }

/-! ## cmd/server/handler/product.go -/

/-- What a handler takes from outside the repository layer: the process environment, the
library function `strconv.Atoi` (`none` when it returns an error) and `validateDate`, which
reads the clock (`none` for `(true, nil)`, `some message` for `(false, err)`), and the library
function `strconv.ParseFloat` at 64 bits (`none` when it returns an error). -/
structure Env where
  TOKEN : String
  Atoi : String → Option Int
  validateDate : String → Option String
  ParseFloat : String → Option Float64

namespace handler

/-- The message of `handler.ErrInvalidId`. -/
def ErrInvalidId : String := "invalid product id"

/-- The message of `handler.ErrInvalidData`. -/
def ErrInvalidData : String := "invalid product data"

/-- The message of `handler.ErrNotFound`. -/
def ErrNotFound : String := "product not found"

/-- The message of `handler.ErrInvalidCode`. -/
def ErrInvalidCode : String := "invalid product code value"

/-- The function `isAuthorized`: `token` is `c.GetHeader("token")`, the empty string when the
header is absent; `none` is the `nil` error. -/
def isAuthorized (env : Env) (token : String) : Option String :=
  if token ≠ env.TOKEN then some "invalid token" else none

/-- The handler `ProductHandler.GetById`; `idParam` is `c.Param("id")`. -/
def GetById (env : Env) (r : RepositoryImpl) (idParam : String) : HttpResponse :=
  match env.Atoi idParam with
  | none => web.Failure 400 ErrInvalidId
  | some id =>
    match ServiceImpl.GetById r id with
    | .error err => web.Failure 404 err
    | .ok targetProduct => web.Success 200 (.data targetProduct)

/-- The struct literal `domain.Product{Name: ..., ...}` of `PartialUpdate`: every field of the
body is copied and `Id` keeps its zero value. -/
def toUpdate (partialUpdateData : ProductRequest) : Product :=
  { Id := 0
    Name := partialUpdateData.Name
    Quantity := partialUpdateData.Quantity
    CodeValue := partialUpdateData.CodeValue
    IsPublished := partialUpdateData.IsPublished
    Expiration := partialUpdateData.Expiration
    Price := partialUpdateData.Price }

/-- The tail of `FullUpdate` and `PartialUpdate` after `h.service.Update` has returned:
the two error checks and the final `web.Success`. On an error `updatedProduct` is
`domain.Product{}`. -/
def respondUpdate (result : Except String Product × RepositoryImpl) :
    HttpResponse × RepositoryImpl :=
  match result with
  | (.error err, r') =>
    if err = ErrNotFound then (web.Failure 404 err, r')
    else if err = ErrInvalidCode then (web.Failure 400 err, r')
    else (web.Success 200 (.data Product.zero), r')
  | (.ok updatedProduct, r') => (web.Success 200 (.data updatedProduct), r')

/-- The handler `ProductHandler.PartialUpdate`; `body` is what `c.ShouldBindJSON` decoded into
a `domain.ProductRequest`, `none` when it returned an error. -/
def PartialUpdate (env : Env) (r : RepositoryImpl) (token idParam : String)
    (body : Option ProductRequest) : HttpResponse × RepositoryImpl :=
  match isAuthorized env token with
  | some err => (web.Failure 401 err, r)
  | none =>
    match env.Atoi idParam with
    | none => (web.Failure 400 ErrInvalidId, r)
    | some id =>
      match body with
      | none => (web.Failure 400 ErrInvalidData, r)
      | some partialUpdateData =>
        let update := toUpdate partialUpdateData
        match (if update.Expiration ≠ "" then env.validateDate update.Expiration else none) with
        | some err => (web.Failure 400 err, r)
        | none => respondUpdate (ServiceImpl.Update r id update)

/-- The handler `ProductHandler.Delete`. -/
def Delete (env : Env) (r : RepositoryImpl) (token idParam : String) :
    HttpResponse × RepositoryImpl :=
  match isAuthorized env token with
  | some err => (web.Failure 401 err, r)
  | none =>
    match env.Atoi idParam with
    | none => (web.Failure 400 ErrInvalidId, r)
    | some id =>
      match ServiceImpl.Delete r id with
      | (some err, r') => (web.Failure 404 err, r')
      | (none, r') => (web.Success 204 .dataNil, r')

/-- The message of `handler.ErrInvalidPrice`. -/
def ErrInvalidPrice : String := "invalid product price"

/-- The handler `ProductHandler.GetAll`. -/
def GetAll (r : RepositoryImpl) : HttpResponse :=
  web.Success 200 (.dataList (ServiceImpl.GetAll r))

/-- The handler `ProductHandler.GetByPriceGt`; `stringPriceGt` is `c.Query("priceGt")`. -/
def GetByPriceGt (env : Env) (r : RepositoryImpl) (stringPriceGt : String) : HttpResponse :=
  match env.ParseFloat stringPriceGt with
  | none => web.Failure 400 ErrInvalidPrice
  | some priceGt =>
    match ServiceImpl.GetByPriceGt r priceGt with
    | .error err => web.Failure 404 err
    | .ok filteredProducts => web.Success 200 (.dataList filteredProducts)

/-- The handler `ProductHandler.Create`; `body` is what `c.ShouldBindJSON` decoded into a
`domain.Product`, `none` when it returned an error. -/
def Create (env : Env) (r : RepositoryImpl) (body : Option Product) :
    HttpResponse × RepositoryImpl :=
  match body with
  | none => (web.Failure 400 ErrInvalidData, r)
  | some newProduct =>
    match env.validateDate newProduct.Expiration with
    | some err => (web.Failure 400 err, r)
    | none =>
      match ServiceImpl.Create r newProduct with
      | (.error err, r') => (web.Failure 400 err, r')
      | (.ok createdProduct, r') => (web.Success 201 (.data createdProduct), r')

/-- The handler `ProductHandler.FullUpdate`; `body` is what `c.ShouldBindJSON` decoded into a
`domain.Product`, `none` when it returned an error. -/
def FullUpdate (env : Env) (r : RepositoryImpl) (token idParam : String)
    (body : Option Product) : HttpResponse × RepositoryImpl :=
  match isAuthorized env token with
  | some err => (web.Failure 401 err, r)
  | none =>
    match env.Atoi idParam with
    | none => (web.Failure 400 ErrInvalidId, r)
    | some id =>
      match body with
      | none => (web.Failure 400 ErrInvalidData, r)
      | some newProductData =>
        match env.validateDate newProductData.Expiration with
        | some err => (web.Failure 400 err, r)
        | none => respondUpdate (ServiceImpl.Update r id newProductData)

end handler

/-! ## The library function strconv.Atoi, on a platform whose `int` has 64 bits -/

/-- The sign a string of characters starts with, if any, and the characters after it:
`true` for a leading minus. -/
def signAndDigits : List Char → Bool × List Char
  | [] => (false, [])
  | ch :: rest =>
    if ch = '-' then (true, rest) else if ch = '+' then (false, rest) else (false, ch :: rest)

/-- The digit loop of `strconv.Atoi`: `n = n*10 + int(ch - '0')` over the characters, `none`
(a syntax error) at the first character that is not a decimal digit. -/
def atoiDigits : List Char → Nat → Option Nat
  | [], n => some n
  | ch :: rest, n =>
    if ch.isDigit then atoiDigits rest (n * 10 + (ch.toNat - 48)) else none

/-- Whether an integer fits the 64-bit `int`. -/
def inIntRange (v : Int) : Bool :=
  decide (-9223372036854775808 ≤ v ∧ v ≤ 9223372036854775807)

/-- The library function `strconv.Atoi`, `none` when it returns an error: a syntax error for
the empty string, a bare sign or a character that is not a decimal digit, a range error for a
value outside the 64-bit `int`. The short and the long path of the library function give the
same result and are one here. -/
def strconv.Atoi (s : String) : Option Int :=
  match signAndDigits s.data with
  | (neg, digits) =>
    if digits = [] then none
    else
      match atoiDigits digits 0 with
      | none => none
      | some n =>
        let v : Int := if neg then -(n : Int) else (n : Int)
        if inIntRange v then some v else none

/-- A decimal integer, as a path segment is one: an optional sign followed by one or more
decimal digits and nothing else. -/
def isDecimalInteger (s : String) : Bool :=
  !(signAndDigits s.data).2.isEmpty && (signAndDigits s.data).2.all Char.isDigit

/-- The number a run of decimal digits denotes. -/
def digitsValue (digits : List Char) : Nat :=
  digits.foldl (fun n ch => n * 10 + (ch.toNat - 48)) 0

/-- The integer a decimal integer denotes. -/
def decimalValue (s : String) : Int :=
  if (signAndDigits s.data).1 then -((digitsValue (signAndDigits s.data).2 : Nat) : Int)
  else ((digitsValue (signAndDigits s.data).2 : Nat) : Int)

/-! ## The library package time, as `validateDate` uses it

An instant is a number of nanoseconds since 1 January 1970, 00:00 UTC. -/

/-- Whether a year of the proleptic Gregorian calendar is a leap year. -/
def isLeap (year : Nat) : Bool :=
  year % 4 = 0 && (year % 100 != 0 || year % 400 = 0)

/-- The number of days of a month, as `time.Parse` checks the day against it. -/
def daysIn (month year : Nat) : Nat :=
  if month = 2 then (if isLeap year then 29 else 28)
  else if month = 4 ∨ month = 6 ∨ month = 9 ∨ month = 11 then 30
  else 31

/-- The number of days in the years `0` to `year - 1`. -/
def daysBeforeYear (year : Nat) : Nat :=
  365 * year + (year + 3) / 4 - (year + 99) / 100 + (year + 399) / 400

/-- The number of days of `year` in the months before `month`. -/
def daysBeforeMonth (month year : Nat) : Nat :=
  ((List.range (month - 1)).map (fun m => daysIn (m + 1) year)).sum

/-- The instant at which a calendar day starts in UTC. -/
def startOfDay (year month day : Nat) : Int :=
  (((daysBeforeYear year + daysBeforeMonth month year + (day - 1) : Nat) : Int)
    - ((daysBeforeYear 1970 : Nat) : Int)) * (86400 * 1000000000)

/-- The value of a decimal digit, `none` for any other character. -/
def digitValue (c : Char) : Option Nat :=
  if c.isDigit then some (c.toNat - 48) else none

/-- The library call `time.Parse("02/01/2006", value)`: two digits of day, a slash, two
digits of month, a slash, four digits of year and nothing else, with the month in 1..12 and
the day in the month; the result is the start of that day in UTC, `none` is an error. -/
def timeParse (value : String) : Option Int :=
  match value.data with
  | [d1, d2, s1, m1, m2, s2, y1, y2, y3, y4] =>
    match digitValue d1, digitValue d2, digitValue m1, digitValue m2,
      digitValue y1, digitValue y2, digitValue y3, digitValue y4 with
    | some a, some b, some c, some d, some e, some f, some g, some h =>
      let day := 10 * a + b
      let month := 10 * c + d
      let year := 1000 * e + 100 * f + 10 * g + h
      if s1 = '/' ∧ s2 = '/' ∧ 1 ≤ month ∧ month ≤ 12 ∧ 1 ≤ day ∧ day ≤ daysIn month year then
        some (startOfDay year month day)
      else none
    | _, _, _, _, _, _, _, _ => none
  | _ => none

namespace handler

/-- The function `validateDate`; `now` is the instant `time.Now()` returns, and
`parsedDate.Before(time.Now())` is the order of the instants. -/
def validateDate (now : Int) (date : String) : Bool × Option String :=
  match timeParse date with
  | none => (false, some "invalid expiration date format")
  | some parsedDate =>
    if parsedDate < now then (false, some "expiration date must be after current date")
    else (true, none)

end handler

/-- The environment of a process whose clock reads `now`: `validateDate` is the function of
the handler package, reduced to the message it rejects with. -/
def Env.atTime (env : Env) (now : Int) : Env :=
  { env with validateDate := fun date => (handler.validateDate now date).2 }

/-! ## cmd/server/middleware/middleware.go -/

namespace middleware

/-- The message of `middleware.ErrInvalidToken`. -/
def ErrInvalidToken : String := "invalid token"

/-- The middleware `TokenValidator`: `some response` when it aborts the chain with
`c.Abort()` and `web.Failure`, `none` when it calls `c.Next()`. -/
def TokenValidator (env : Env) (token : String) : Option HttpResponse :=
  if token = "" then some (web.Failure 401 ErrInvalidToken)
  else if token ≠ env.TOKEN then some (web.Failure 401 ErrInvalidToken)
  else none

end middleware

/-! ## cmd/main.go: the protected route group -/

/-- What the handlers read of a request: the `token` header (empty when absent), the path
segment `:id`, and what `c.ShouldBindJSON` makes of the body for each of the two target
types (`none` when it returns an error). -/
structure Request where
  token : String
  idParam : String
  product : Option Product
  productRequest : Option ProductRequest

/-- The four routes of `protectedProductGroup`. -/
inductive Route where
  | postNew
  | putId
  | patchId
  | deleteId
deriving DecidableEq

/-- A request to a route of `protectedProductGroup`: `middleware.TokenValidator` runs first,
and the handler of the route runs when the middleware has not aborted. -/
def protectedProductGroup (env : Env) (r : RepositoryImpl) (route : Route) (req : Request) :
    HttpResponse × RepositoryImpl :=
  match middleware.TokenValidator env req.token with
  | some response => (response, r)
  | none =>
    match route with
    | .postNew => handler.Create env r req.product
    | .putId => handler.FullUpdate env r req.token req.idParam req.product
    | .patchId => handler.PartialUpdate env r req.token req.idParam req.productRequest
    | .deleteId => handler.Delete env r req.token req.idParam

/-- The check the specification describes for both forms of the token check: the header value
is compared literally with the configured secret and a difference is rejected with
"invalid token". -/
def specTokenCheck (secret token : String) : Option String :=
  if token = secret then none else some "invalid token"

/-! ## Sample data -/

/-- A three-record collection with distinct identifiers and code values. -/
def sampleList : List Product :=
  [ { Id := 1, Name := "Pineapple", Quantity := 100, CodeValue := "COD1", IsPublished := true,
      Expiration := "25/08/2030", Price := 299 },
    { Id := 2, Name := "Pear", Quantity := 7, CodeValue := "COD2", IsPublished := false,
      Expiration := "01/02/2031", Price := 15 },
    { Id := 3, Name := "Plum", Quantity := 12, CodeValue := "COD3", IsPublished := true,
      Expiration := "11/11/2032", Price := 40 } ]

/-- A product that is not in `sampleList`; the identifier it carries is ignored by `Create`. -/
def samplePayload : Product :=
  { Id := 77, Name := "Peach", Quantity := 5, CodeValue := "COD4", IsPublished := true,
    Expiration := "31/12/2099", Price := 8 }

/-- The collection reached from `sampleList` by `Delete(1)` followed by
`Create(samplePayload)`. -/
def afterDeleteCreate : RepositoryImpl :=
  ((RepositoryImpl.Delete { productList := sampleList } 1).2.Create samplePayload).2

/-- A call of one of the three mutating service methods. -/
inductive Call where
  | create (product : Product)
  | update (id : Int) (newProductData : Product)
  | delete (id : Int)

/-- The repository after one service call, whether the call succeeds or fails. -/
def Call.run (r : RepositoryImpl) : Call → RepositoryImpl
  | .create product => (ServiceImpl.Create r product).2
  | .update id newProductData => (ServiceImpl.Update r id newProductData).2
  | .delete id => (ServiceImpl.Delete r id).2

/-- The repository after a sequence of service calls, made in order. -/
def runCalls (r : RepositoryImpl) (calls : List Call) : RepositoryImpl :=
  calls.foldl Call.run r

/-- A sequence of service calls on the sample collection: a create, an update that changes a
code value, an update rejected for a code value in use, a delete and a create rejected for a
code value in use. -/
def sampleCalls : List Call :=
  [ .create samplePayload,
    .update 2 { Id := 0, Name := "", Quantity := 0, CodeValue := "COD9", IsPublished := false,
                Expiration := "", Price := 20 },
    .update 3 { Id := 0, Name := "", Quantity := 0, CodeValue := "COD1", IsPublished := false,
                Expiration := "", Price := 0 },
    .delete 1,
    .create { samplePayload with Name := "Papaya" } ]

/-- A payload whose quantity and price are negative and whose other fields are unset. -/
def negativePayload : Product :=
  { Id := 0, Name := "", Quantity := -5, CodeValue := "", IsPublished := true,
    Expiration := "", Price := -1 }

/-- A payload that sets the code value and the price and leaves the other fields unset. -/
def partialPayload : Product :=
  { Id := 0, Name := "", Quantity := 0, CodeValue := "COD9", IsPublished := false,
    Expiration := "", Price := 20 }

/-- The second sample record after the merge with `partialPayload`. -/
def pearUpdated : Product :=
  { Id := 2, Name := "Pear", Quantity := 7, CodeValue := "COD9", IsPublished := false,
    Expiration := "01/02/2031", Price := 20 }

/-- The first sample record after the merge with `partialPayload`. -/
def pineappleUpdated : Product :=
  { Id := 1, Name := "Pineapple", Quantity := 100, CodeValue := "COD9", IsPublished := false,
    Expiration := "25/08/2030", Price := 20 }

/-- The body `{"quantity": q}` of a partial update once decoded. -/
def quantityOnly (q : Int) : ProductRequest :=
  { Name := "", Quantity := q, CodeValue := "", IsPublished := false, Expiration := "",
    Price := 0 }

/-- An environment for the examples: the token of the tests, a reader of one-digit
identifiers, a date check that accepts everything and a reader of one-digit prices. -/
def sampleEnv : Env :=
  { TOKEN := "12345"
    Atoi := fun s =>
      match s.data with
      | [c] => if c.isDigit then some ((c.toNat : Int) - 48) else none
      | _ => none
    validateDate := fun _ => none
    ParseFloat := fun s =>
      match s.data with
      | [c] => if c.isDigit then some (.finite ((c.toNat : ℚ) - 48)) else none
      | _ => none }

/-- The sample environment with `strconv.Atoi` itself as the reader of identifiers. -/
def liveEnv : Env :=
  { sampleEnv with Atoi := strconv.Atoi }

/-! ## The loops -/

theorem validateCodeValueLoop_eq_true (codeValue : String) (l : List Product) :
    validateCodeValueLoop codeValue l = true ↔ ∀ x ∈ l, x.CodeValue ≠ codeValue := by
  induction l with
  | nil => simp [validateCodeValueLoop]
  | cons a l ih =>
    by_cases h : a.CodeValue = codeValue
    · simp [validateCodeValueLoop, h]
    · simp [validateCodeValueLoop, h, ih]

theorem validateCodeValueLoop_eq_false (codeValue : String) (l : List Product) :
    validateCodeValueLoop codeValue l = false ↔ ∃ x ∈ l, x.CodeValue = codeValue := by
  rw [← Bool.not_eq_true, validateCodeValueLoop_eq_true]
  push_neg
  rfl

theorem rangeById_absent (id : Int) (l : List Product) (i : Nat)
    (h : ∀ x ∈ l, x.Id ≠ id) : rangeById id l i = none := by
  induction l generalizing i with
  | nil => rfl
  | cons a l ih =>
    have ha : a.Id ≠ id := h a (List.mem_cons_self a l)
    simp only [rangeById, ha, if_false]
    exact ih (i + 1) (fun x hx => h x (List.mem_cons_of_mem a hx))

theorem rangeById_split (id : Int) (pre post : List Product) (t : Product) (i : Nat)
    (ht : t.Id = id) (h : ∀ x ∈ pre, x.Id ≠ id) :
    rangeById id (pre ++ t :: post) i = some (i + pre.length, t) := by
  induction pre generalizing i with
  | nil => simp [rangeById, ht]
  | cons a pre ih =>
    have ha : a.Id ≠ id := h a (List.mem_cons_self a pre)
    rw [List.cons_append]
    simp only [rangeById, ha, if_false, List.length_cons]
    rw [ih (i + 1) (fun x hx => h x (List.mem_cons_of_mem a hx))]
    congr 2
    omega

theorem getByIdLoop_absent (id : Int) (l : List Product)
    (h : ∀ x ∈ l, x.Id ≠ id) : getByIdLoop id l = .error ErrNotFound := by
  induction l with
  | nil => rfl
  | cons a l ih =>
    have ha : a.Id ≠ id := h a (List.mem_cons_self a l)
    simp only [getByIdLoop, ha, if_false]
    exact ih (fun x hx => h x (List.mem_cons_of_mem a hx))

theorem getByIdLoop_split (id : Int) (pre post : List Product) (t : Product)
    (ht : t.Id = id) (h : ∀ x ∈ pre, x.Id ≠ id) :
    getByIdLoop id (pre ++ t :: post) = .ok t := by
  induction pre with
  | nil => simp [getByIdLoop, ht]
  | cons a pre ih =>
    have ha : a.Id ≠ id := h a (List.mem_cons_self a pre)
    rw [List.cons_append]
    simp only [getByIdLoop, ha, if_false]
    exact ih (fun x hx => h x (List.mem_cons_of_mem a hx))

/-- Every collection either holds no record with the identifier, or splits at the first one. -/
theorem split_at_first (id : Int) (l : List Product) :
    (∀ x ∈ l, x.Id ≠ id) ∨
      ∃ pre t post, l = pre ++ t :: post ∧ t.Id = id ∧ ∀ x ∈ pre, x.Id ≠ id := by
  induction l with
  | nil => left; simp
  | cons a l ih =>
    by_cases ha : a.Id = id
    · right; exact ⟨[], a, l, rfl, ha, by simp⟩
    · rcases ih with h | ⟨pre, t, post, hl, ht, hpre⟩
      · left
        intro x hx
        rcases List.mem_cons.mp hx with rfl | hx
        · exact ha
        · exact h x hx
      · right
        refine ⟨a :: pre, t, post, by simp [hl], ht, ?_⟩
        intro x hx
        rcases List.mem_cons.mp hx with rfl | hx
        · exact ha
        · exact hpre x hx

theorem getByIdLoop_ok_iff (id : Int) (l : List Product) (t : Product) :
    getByIdLoop id l = .ok t ↔
      ∃ pre post, l = pre ++ t :: post ∧ t.Id = id ∧ ∀ x ∈ pre, x.Id ≠ id := by
  constructor
  · intro h
    rcases split_at_first id l with habs | ⟨pre, t', post, hl, ht, hpre⟩
    · rw [getByIdLoop_absent id l habs] at h
      cases h
    · rw [hl, getByIdLoop_split id pre post t' ht hpre] at h
      cases h
      exact ⟨pre, post, hl, ht, hpre⟩
  · rintro ⟨pre, post, hl, ht, hpre⟩
    rw [hl]
    exact getByIdLoop_split id pre post t ht hpre

theorem getByIdLoop_error_iff (id : Int) (l : List Product) (e : String) :
    getByIdLoop id l = .error e ↔ e = ErrNotFound ∧ ∀ x ∈ l, x.Id ≠ id := by
  constructor
  · intro h
    rcases split_at_first id l with habs | ⟨pre, t', post, hl, ht, hpre⟩
    · rw [getByIdLoop_absent id l habs] at h
      cases h
      exact ⟨rfl, habs⟩
    · rw [hl, getByIdLoop_split id pre post t' ht hpre] at h
      cases h
  · rintro ⟨rfl, habs⟩
    exact getByIdLoop_absent id l habs

theorem set_at_split (pre post : List Product) (t u : Product) :
    (pre ++ t :: post).set pre.length u = pre ++ u :: post := by
  induction pre with
  | nil => rfl
  | cons a pre ih => simp [ih]

theorem erase_at_split (pre post : List Product) (t : Product) :
    (pre ++ t :: post).take pre.length ++ (pre ++ t :: post).drop (pre.length + 1)
      = pre ++ post := by
  induction pre with
  | nil => simp
  | cons a pre ih => simp

theorem ServiceImpl.GetById_eq (r : RepositoryImpl) (id : Int) :
    ServiceImpl.GetById r id = r.GetById id := by
  unfold ServiceImpl.GetById
  cases r.GetById id <;> rfl

theorem ServiceImpl.Create_eq (r : RepositoryImpl) (p : Product) :
    ServiceImpl.Create r p = r.Create p := by
  unfold ServiceImpl.Create
  rcases r.Create p with ⟨_ | _, _⟩ <;> rfl

theorem ServiceImpl.Delete_eq (r : RepositoryImpl) (id : Int) :
    ServiceImpl.Delete r id = r.Delete id := by
  unfold ServiceImpl.Delete
  rcases r.Delete id with ⟨_ | _, _⟩ <;> rfl

theorem ServiceImpl.Update_eq (r : RepositoryImpl) (id : Int) (n : Product) :
    ServiceImpl.Update r id n =
      match r.GetById id with
      | .error err => (.error err, r)
      | .ok product => r.Update id (mergeProduct product n) := by
  unfold ServiceImpl.Update
  cases r.GetById id with
  | error e => rfl
  | ok product =>
    dsimp only
    rcases r.Update id (mergeProduct product n) with ⟨_ | _, _⟩ <;> rfl

/-! ## The repository methods on a split collection -/

theorem Create_taken (r : RepositoryImpl) (p : Product)
    (h : ∃ x ∈ r.productList, x.CodeValue = p.CodeValue) :
    r.Create p = (.error ErrInvalidCode, r) := by
  have hv : validateCodeValueLoop p.CodeValue r.productList = false :=
    (validateCodeValueLoop_eq_false _ _).mpr h
  simp [RepositoryImpl.Create, RepositoryImpl.validateCodeValue, hv]

theorem Create_fresh (r : RepositoryImpl) (p : Product)
    (h : ∀ x ∈ r.productList, x.CodeValue ≠ p.CodeValue) :
    r.Create p = (.ok { p with Id := r.productList.length + 1 },
      { productList := r.productList ++ [{ p with Id := r.productList.length + 1 }] }) := by
  have hv : validateCodeValueLoop p.CodeValue r.productList = true :=
    (validateCodeValueLoop_eq_true _ _).mpr h
  simp [RepositoryImpl.Create, RepositoryImpl.validateCodeValue, hv]

theorem Update_absent (r : RepositoryImpl) (id : Int) (n : Product)
    (h : ∀ x ∈ r.productList, x.Id ≠ id) : r.Update id n = (.error ErrNotFound, r) := by
  simp [RepositoryImpl.Update, rangeById_absent id r.productList 0 h]

theorem Update_rejected (r : RepositoryImpl) (id : Int) (n : Product)
    (pre post : List Product) (t : Product) (hl : r.productList = pre ++ t :: post)
    (ht : t.Id = id) (hpre : ∀ x ∈ pre, x.Id ≠ id)
    (hc : n.CodeValue ≠ t.CodeValue) (hx : ∃ x ∈ r.productList, x.CodeValue = n.CodeValue) :
    r.Update id n = (.error ErrInvalidCode, r) := by
  have hv : validateCodeValueLoop n.CodeValue r.productList = false :=
    (validateCodeValueLoop_eq_false _ _).mpr hx
  have hr : rangeById id r.productList 0 = some (0 + pre.length, t) := by
    rw [hl]; exact rangeById_split id pre post t 0 ht hpre
  simp [RepositoryImpl.Update, hr, RepositoryImpl.validateCodeValue, hv, Ne.symm hc]

theorem Update_stored (r : RepositoryImpl) (id : Int) (n : Product)
    (pre post : List Product) (t : Product) (hl : r.productList = pre ++ t :: post)
    (ht : t.Id = id) (hpre : ∀ x ∈ pre, x.Id ≠ id)
    (hc : ¬ (n.CodeValue ≠ t.CodeValue ∧ ∃ x ∈ r.productList, x.CodeValue = n.CodeValue)) :
    r.Update id n = (.ok { n with Id := id },
      { productList := pre ++ { n with Id := id } :: post }) := by
  have hr : rangeById id r.productList 0 = some (0 + pre.length, t) := by
    rw [hl]; exact rangeById_split id pre post t 0 ht hpre
  have hset : r.productList.set pre.length { n with Id := id }
      = pre ++ { n with Id := id } :: post := by
    rw [hl]; exact set_at_split pre post t _
  by_cases hv : validateCodeValueLoop n.CodeValue r.productList = true
  · simp [RepositoryImpl.Update, hr, RepositoryImpl.validateCodeValue, hv, hset]
  · have hv' : validateCodeValueLoop n.CodeValue r.productList = false := by
      simpa using hv
    have hx := (validateCodeValueLoop_eq_false _ _).mp hv'
    have hc' : t.CodeValue = n.CodeValue := by
      by_contra hne
      exact hc ⟨Ne.symm hne, hx⟩
    simp [RepositoryImpl.Update, hr, RepositoryImpl.validateCodeValue, hv', hset, hc']

theorem Delete_absent (r : RepositoryImpl) (id : Int)
    (h : ∀ x ∈ r.productList, x.Id ≠ id) : r.Delete id = (some ErrNotFound, r) := by
  simp [RepositoryImpl.Delete, rangeById_absent id r.productList 0 h]

theorem Delete_removed (r : RepositoryImpl) (id : Int)
    (pre post : List Product) (t : Product) (hl : r.productList = pre ++ t :: post)
    (ht : t.Id = id) (hpre : ∀ x ∈ pre, x.Id ≠ id) :
    r.Delete id = (none, { productList := pre ++ post }) := by
  have hr : rangeById id r.productList 0 = some (0 + pre.length, t) := by
    rw [hl]; exact rangeById_split id pre post t 0 ht hpre
  have he := erase_at_split pre post t
  rw [← hl] at he
  simp [RepositoryImpl.Delete, hr, he]

theorem ErrInvalidCode_ne_ErrNotFound : ErrInvalidCode ≠ ErrNotFound := by decide

/-! ## Create -/

/-- C1: `Repository.Create(p)`, and `Service.Create`, which returns the same, fails with
Invalid-Code and leaves the collection as it was when some stored record has the code value of
`p`; otherwise it returns `p` with the identifier replaced by the collection length plus one and
appends exactly that record at the end of the collection. -/
theorem create_contract (r : RepositoryImpl) (p : Product) :
    ServiceImpl.Create r p = r.Create p ∧
    r.Create p =
      if ∃ x ∈ r.productList, x.CodeValue = p.CodeValue then (.error ErrInvalidCode, r)
      else (.ok { p with Id := r.productList.length + 1 },
        { productList := r.productList ++ [{ p with Id := r.productList.length + 1 }] }) := by
  refine ⟨ServiceImpl.Create_eq r p, ?_⟩
  by_cases h : ∃ x ∈ r.productList, x.CodeValue = p.CodeValue
  · rw [if_pos h]
    exact Create_taken r p h
  · rw [if_neg h]
    apply Create_fresh
    intro x hx hc
    exact h ⟨x, hx, hc⟩

/-- C2: after `Delete(1)` on a three-record collection, `Create` succeeds and returns a record
with identifier 3, but the following `GetById(3)` returns the older record that already carried
identifier 3, not the record `Create` returned. -/
theorem create_then_get_after_delete :
    (RepositoryImpl.Delete { productList := sampleList } 1).1 = none ∧
    ((RepositoryImpl.Delete { productList := sampleList } 1).2.Create samplePayload).1
      = .ok { samplePayload with Id := 3 } ∧
    afterDeleteCreate.GetById 3
      = .ok { Id := 3, Name := "Plum", Quantity := 12, CodeValue := "COD3", IsPublished := true,
              Expiration := "11/11/2032", Price := 40 } ∧
    afterDeleteCreate.GetById 3 ≠ .ok { samplePayload with Id := 3 } := by
  decide

/-- C3: the identifiers 1, 2, 3 of the sample collection are pairwise distinct, and after
`Delete(1)` followed by a successful `Create` the stored identifiers are 2, 3, 3. -/
theorem identifiers_after_delete_create :
    (sampleList.map Product.Id).Nodup ∧
    afterDeleteCreate.productList.map Product.Id = [2, 3, 3] ∧
    ¬ (afterDeleteCreate.productList.map Product.Id).Nodup := by
  decide

/-! ## Update and Delete in the repository -/

/-- C8: `Repository.Update(id, n)` fails with Not-Found exactly when no stored record has the
identifier; when the first record with the identifier is `target`, it fails with Invalid-Code
exactly when the code value of `n` differs from that of `target` and is carried by some stored
record; otherwise it returns `n` with the identifier set to `id` and stores it at the position
of `target`, every other record and the length staying as they were. A failing call leaves the
collection unchanged. -/
theorem repository_update_contract (r : RepositoryImpl) (id : Int) (n : Product) :
    ((r.Update id n).1 = .error ErrNotFound ↔ ∀ x ∈ r.productList, x.Id ≠ id) ∧
    ((∃ x ∈ r.productList, x.Id = id) → ∃ target, r.GetById id = .ok target) ∧
    (∀ target, r.GetById id = .ok target →
      ((r.Update id n).1 = .error ErrInvalidCode ↔
        (n.CodeValue ≠ target.CodeValue ∧ ∃ x ∈ r.productList, x.CodeValue = n.CodeValue))) ∧
    (∀ target, r.GetById id = .ok target →
      ¬ (n.CodeValue ≠ target.CodeValue ∧ ∃ x ∈ r.productList, x.CodeValue = n.CodeValue) →
      ∃ pre post, r.productList = pre ++ target :: post ∧ (∀ x ∈ pre, x.Id ≠ id) ∧
        r.Update id n = (.ok { n with Id := id },
          { productList := pre ++ { n with Id := id } :: post }) ∧
        (r.Update id n).2.productList.length = r.productList.length) ∧
    (∀ e, (r.Update id n).1 = .error e → (r.Update id n).2 = r) := by
  refine ⟨?_, ?_, ?_, ?_, ?_⟩
  · constructor
    · intro h
      rcases split_at_first id r.productList with habs | ⟨pre, t, post, hl, ht, hpre⟩
      · exact habs
      · exfalso
        by_cases hc : n.CodeValue ≠ t.CodeValue ∧ ∃ x ∈ r.productList, x.CodeValue = n.CodeValue
        · rw [Update_rejected r id n pre post t hl ht hpre hc.1 hc.2] at h
          exact ErrInvalidCode_ne_ErrNotFound (by simpa using h)
        · rw [Update_stored r id n pre post t hl ht hpre hc] at h
          cases h
    · intro h
      rw [Update_absent r id n h]
  · rintro ⟨x, hx, hxid⟩
    rcases split_at_first id r.productList with habs | ⟨pre, t, post, hl, ht, hpre⟩
    · exact absurd hxid (habs x hx)
    · exact ⟨t, by rw [RepositoryImpl.GetById, hl]; exact getByIdLoop_split id pre post t ht hpre⟩
  · intro target hg
    obtain ⟨pre, post, hl, ht, hpre⟩ := (getByIdLoop_ok_iff id r.productList target).mp hg
    constructor
    · intro h
      by_contra hc
      rw [Update_stored r id n pre post target hl ht hpre hc] at h
      cases h
    · intro hc
      rw [Update_rejected r id n pre post target hl ht hpre hc.1 hc.2]
  · intro target hg hc
    obtain ⟨pre, post, hl, ht, hpre⟩ := (getByIdLoop_ok_iff id r.productList target).mp hg
    refine ⟨pre, post, hl, hpre, Update_stored r id n pre post target hl ht hpre hc, ?_⟩
    rw [Update_stored r id n pre post target hl ht hpre hc, hl]
    simp
  · intro e h
    rcases split_at_first id r.productList with habs | ⟨pre, t, post, hl, ht, hpre⟩
    · rw [Update_absent r id n habs]
    · by_cases hc : n.CodeValue ≠ t.CodeValue ∧ ∃ x ∈ r.productList, x.CodeValue = n.CodeValue
      · rw [Update_rejected r id n pre post t hl ht hpre hc.1 hc.2]
      · rw [Update_stored r id n pre post t hl ht hpre hc] at h
        cases h

/-- C9: `Repository.Delete(id)`, and `Service.Delete`, which returns the same, fails with
Not-Found and leaves the collection as it was exactly when no stored record has the identifier;
otherwise it succeeds and the new collection is the old one without the first record carrying
the identifier, the other records unchanged and in their order, one record shorter. -/
theorem delete_contract (r : RepositoryImpl) (id : Int) :
    ServiceImpl.Delete r id = r.Delete id ∧
    (r.Delete id = (some ErrNotFound, r) ↔ ∀ x ∈ r.productList, x.Id ≠ id) ∧
    ((r.Delete id).1 = none ↔ ∃ x ∈ r.productList, x.Id = id) ∧
    ((∃ x ∈ r.productList, x.Id = id) →
      ∃ pre t post, r.productList = pre ++ t :: post ∧ t.Id = id ∧ (∀ x ∈ pre, x.Id ≠ id) ∧
        r.Delete id = (none, { productList := pre ++ post }) ∧
        (r.Delete id).2.productList.length + 1 = r.productList.length) := by
  refine ⟨ServiceImpl.Delete_eq r id, ?_, ?_, ?_⟩
  · constructor
    · intro h
      rcases split_at_first id r.productList with habs | ⟨pre, t, post, hl, ht, hpre⟩
      · exact habs
      · rw [Delete_removed r id pre post t hl ht hpre] at h
        cases h
    · exact Delete_absent r id
  · constructor
    · intro h
      rcases split_at_first id r.productList with habs | ⟨pre, t, post, hl, ht, _⟩
      · rw [Delete_absent r id habs] at h
        cases h
      · exact ⟨t, by rw [hl]; simp, ht⟩
    · rintro ⟨x, hx, hxid⟩
      rcases split_at_first id r.productList with habs | ⟨pre, t, post, hl, ht, hpre⟩
      · exact absurd hxid (habs x hx)
      · rw [Delete_removed r id pre post t hl ht hpre]
  · rintro ⟨x, hx, hxid⟩
    rcases split_at_first id r.productList with habs | ⟨pre, t, post, hl, ht, hpre⟩
    · exact absurd hxid (habs x hx)
    · refine ⟨pre, t, post, hl, ht, hpre, Delete_removed r id pre post t hl ht hpre, ?_⟩
      rw [Delete_removed r id pre post t hl ht hpre, hl]
      simp
      omega

/-- C10: on the collection reached from the sample by `Delete(1)` and `Create`, `Delete(3)`
succeeds, and afterwards `GetById(3)` still succeeds (status 200 from the handler) and a second
`Delete(3)` succeeds as well (status 204) instead of failing with Not-Found. -/
theorem delete_then_get_after_reuse :
    (afterDeleteCreate.Delete 3).1 = none ∧
    (afterDeleteCreate.Delete 3).2.GetById 3 = .ok { samplePayload with Id := 3 } ∧
    (handler.GetById sampleEnv (afterDeleteCreate.Delete 3).2 "3").status = 200 ∧
    ((afterDeleteCreate.Delete 3).2.Delete 3).1 = none ∧
    (handler.Delete sampleEnv (afterDeleteCreate.Delete 3).2 "12345" "3").1.status = 204 := by
  decide

/-! ## Service.Update -/

theorem mergeProduct_fields (t n : Product) :
    (mergeProduct t n).Id = t.Id ∧
    (mergeProduct t n).Name = (if n.Name ≠ "" then n.Name else t.Name) ∧
    (mergeProduct t n).Quantity = (if n.Quantity > 0 then n.Quantity else t.Quantity) ∧
    (mergeProduct t n).CodeValue = (if n.CodeValue ≠ "" then n.CodeValue else t.CodeValue) ∧
    (mergeProduct t n).Expiration = (if n.Expiration ≠ "" then n.Expiration else t.Expiration) ∧
    (mergeProduct t n).Price = (if n.Price > 0 then n.Price else t.Price) ∧
    (mergeProduct t n).IsPublished = n.IsPublished := by
  by_cases h1 : n.Name = "" <;> by_cases h2 : n.Quantity > 0 <;>
    by_cases h3 : n.CodeValue = "" <;> by_cases h4 : n.Expiration = "" <;>
    by_cases h5 : n.Price > 0 <;>
    simp [mergeProduct, h1, h2, h3, h4, h5]

theorem ServiceUpdate_absent (r : RepositoryImpl) (id : Int) (n : Product)
    (h : ∀ x ∈ r.productList, x.Id ≠ id) :
    ServiceImpl.Update r id n = (.error ErrNotFound, r) := by
  rw [ServiceImpl.Update_eq, RepositoryImpl.GetById, getByIdLoop_absent id r.productList h]

theorem ServiceUpdate_split (r : RepositoryImpl) (id : Int) (n : Product)
    (pre post : List Product) (t : Product) (hl : r.productList = pre ++ t :: post)
    (ht : t.Id = id) (hpre : ∀ x ∈ pre, x.Id ≠ id) :
    ServiceImpl.Update r id n = r.Update id (mergeProduct t n) := by
  rw [ServiceImpl.Update_eq, RepositoryImpl.GetById, hl, getByIdLoop_split id pre post t ht hpre]

/-- A successful `Service.Update` found a first record `t` with the identifier, returned the
merge of `t` and the payload, and stored it in the place of `t`. -/
theorem ServiceUpdate_ok (r r' : RepositoryImpl) (id : Int) (n u : Product)
    (h : ServiceImpl.Update r id n = (.ok u, r')) :
    ∃ pre t post, r.productList = pre ++ t :: post ∧ t.Id = id ∧ (∀ x ∈ pre, x.Id ≠ id) ∧
      u = mergeProduct t n ∧ r'.productList = pre ++ u :: post := by
  rcases split_at_first id r.productList with habs | ⟨pre, t, post, hl, ht, hpre⟩
  · rw [ServiceUpdate_absent r id n habs] at h
    cases h
  · refine ⟨pre, t, post, hl, ht, hpre, ?_⟩
    rw [ServiceUpdate_split r id n pre post t hl ht hpre] at h
    by_cases hc : (mergeProduct t n).CodeValue ≠ t.CodeValue ∧
        ∃ x ∈ r.productList, x.CodeValue = (mergeProduct t n).CodeValue
    · rw [Update_rejected r id _ pre post t hl ht hpre hc.1 hc.2] at h
      cases h
    · rw [Update_stored r id _ pre post t hl ht hpre hc] at h
      have hid : ({ mergeProduct t n with Id := id } : Product) = mergeProduct t n := by
        have := (mergeProduct_fields t n).1
        rw [ht] at this
        cases hm : mergeProduct t n
        rw [hm] at this
        simp only at this
        subst this
        rfl
      rw [hid] at h
      cases h
      exact ⟨rfl, rfl⟩

theorem ServiceUpdate_error (r r' : RepositoryImpl) (id : Int) (n : Product) (e : String)
    (h : ServiceImpl.Update r id n = (.error e, r')) :
    (e = ErrNotFound ∨ e = ErrInvalidCode) ∧ r' = r := by
  rcases split_at_first id r.productList with habs | ⟨pre, t, post, hl, ht, hpre⟩
  · rw [ServiceUpdate_absent r id n habs] at h
    cases h
    exact ⟨Or.inl rfl, rfl⟩
  · rw [ServiceUpdate_split r id n pre post t hl ht hpre] at h
    by_cases hc : (mergeProduct t n).CodeValue ≠ t.CodeValue ∧
        ∃ x ∈ r.productList, x.CodeValue = (mergeProduct t n).CodeValue
    · rw [Update_rejected r id _ pre post t hl ht hpre hc.1 hc.2] at h
      cases h
      exact ⟨Or.inr rfl, rfl⟩
    · rw [Update_stored r id _ pre post t hl ht hpre hc] at h
      cases h

theorem ServiceUpdate_stored (r r' : RepositoryImpl) (id : Int) (n u : Product)
    (h : ServiceImpl.Update r id n = (.ok u, r')) : r'.GetById id = .ok u := by
  obtain ⟨pre, t, post, _, ht, hpre, hu, hl'⟩ := ServiceUpdate_ok r r' id n u h
  have hid : u.Id = id := by rw [hu, (mergeProduct_fields t n).1, ht]
  rw [RepositoryImpl.GetById, hl']
  exact getByIdLoop_split id pre post u hid hpre

/-- C5 (as stated): a payload whose quantity is -5 and whose price is -1, both non-zero, is
accepted by `Service.Update`, and the stored record keeps its quantity 100 and price 299. -/
theorem update_negative_numbers_kept :
    negativePayload.Quantity ≠ 0 ∧ negativePayload.Price ≠ 0 ∧
    (ServiceImpl.Update { productList := sampleList } 1 negativePayload).1
      = .ok { Id := 1, Name := "Pineapple", Quantity := 100, CodeValue := "COD1",
              IsPublished := true, Expiration := "25/08/2030", Price := 299 } ∧
    (ServiceImpl.Update { productList := sampleList } 1 negativePayload).2.GetById 1
      = .ok { Id := 1, Name := "Pineapple", Quantity := 100, CodeValue := "COD1",
              IsPublished := true, Expiration := "25/08/2030", Price := 299 } := by
  decide

/-- C5 (amended): after a successful `Service.Update(id, payload)` the record returned is the
record stored under `id`, and each of its name, code value and expiration is the payload's
value when that is non-empty and the prior value otherwise, and each of its quantity and price
is the payload's value when that is strictly positive and the prior value otherwise. -/
theorem update_merges_fields (r r' : RepositoryImpl) (id : Int) (payload u : Product)
    (h : ServiceImpl.Update r id payload = (.ok u, r')) :
    ∃ old, r.GetById id = .ok old ∧ r'.GetById id = .ok u ∧
      u.Name = (if payload.Name ≠ "" then payload.Name else old.Name) ∧
      u.Quantity = (if payload.Quantity > 0 then payload.Quantity else old.Quantity) ∧
      u.CodeValue = (if payload.CodeValue ≠ "" then payload.CodeValue else old.CodeValue) ∧
      u.Expiration = (if payload.Expiration ≠ "" then payload.Expiration else old.Expiration) ∧
      u.Price = (if payload.Price > 0 then payload.Price else old.Price) := by
  obtain ⟨pre, t, post, hl, ht, hpre, hu, _⟩ := ServiceUpdate_ok r r' id payload u h
  refine ⟨t, ?_, ServiceUpdate_stored r r' id payload u h, ?_⟩
  · rw [RepositoryImpl.GetById, hl]
    exact getByIdLoop_split id pre post t ht hpre
  · obtain ⟨_, h1, h2, h3, h4, h5, _⟩ := mergeProduct_fields t payload
    rw [hu]
    exact ⟨h1, h2, h3, h4, h5⟩

theorem update_merges_fields_witness :
    ServiceImpl.Update { productList := sampleList } 2 partialPayload
      = (.ok pearUpdated, { productList := sampleList.set 1 pearUpdated }) ∧
    ∃ old, RepositoryImpl.GetById { productList := sampleList } 2 = .ok old ∧
      RepositoryImpl.GetById { productList := sampleList.set 1 pearUpdated } 2
        = .ok pearUpdated ∧
      pearUpdated.Name = (if partialPayload.Name ≠ "" then partialPayload.Name else old.Name) ∧
      pearUpdated.Quantity
        = (if partialPayload.Quantity > 0 then partialPayload.Quantity else old.Quantity) ∧
      pearUpdated.CodeValue
        = (if partialPayload.CodeValue ≠ "" then partialPayload.CodeValue
            else old.CodeValue) ∧
      pearUpdated.Expiration
        = (if partialPayload.Expiration ≠ "" then partialPayload.Expiration
            else old.Expiration) ∧
      pearUpdated.Price
        = (if partialPayload.Price > 0 then partialPayload.Price else old.Price) :=
  ⟨by decide,
    update_merges_fields { productList := sampleList }
      { productList := sampleList.set 1 pearUpdated } 2 partialPayload pearUpdated (by decide)⟩

theorem respondUpdate_service (r r'' : RepositoryImpl) (id : Int) (n : Product)
    (resp : HttpResponse)
    (h : handler.respondUpdate (ServiceImpl.Update r id n) = (resp, r''))
    (hs : resp.status = 200) :
    ∃ u, ServiceImpl.Update r id n = (.ok u, r'') ∧ resp = web.Success 200 (.data u) := by
  rcases hres : ServiceImpl.Update r id n with ⟨e | u, r1⟩
  · obtain ⟨he, _⟩ := ServiceUpdate_error r r1 id n e hres
    rw [hres] at h
    rcases he with rfl | rfl
    · simp [handler.respondUpdate, handler.ErrNotFound, ErrNotFound, web.Failure] at h
      obtain ⟨h1, _⟩ := h
      subst h1
      simp at hs
    · simp [handler.respondUpdate, handler.ErrNotFound, handler.ErrInvalidCode, ErrInvalidCode,
        web.Failure] at h
      obtain ⟨h1, _⟩ := h
      subst h1
      simp at hs
  · rw [hres] at h
    simp [handler.respondUpdate] at h
    obtain ⟨h1, h2⟩ := h
    subst h1 h2
    exact ⟨u, rfl, rfl⟩

theorem PartialUpdate_ok (env : Env) (r r'' : RepositoryImpl) (token idParam : String)
    (body : Option ProductRequest) (resp : HttpResponse)
    (h : handler.PartialUpdate env r token idParam body = (resp, r''))
    (hs : resp.status = 200) :
    ∃ id req u, env.Atoi idParam = some id ∧ body = some req ∧
      ServiceImpl.Update r id (handler.toUpdate req) = (.ok u, r'') ∧
      resp = web.Success 200 (.data u) := by
  unfold handler.PartialUpdate at h
  rcases hauth : handler.isAuthorized env token with _ | err
  · rcases hid : env.Atoi idParam with _ | id
    · simp [hauth, hid, web.Failure] at h
      obtain ⟨h1, _⟩ := h
      subst h1
      simp at hs
    · rcases body with _ | req
      · simp [hauth, hid, web.Failure] at h
        obtain ⟨h1, _⟩ := h
        subst h1
        simp at hs
      · simp only [hauth, hid] at h
        split at h
        · simp [web.Failure] at h
          obtain ⟨h1, _⟩ := h
          subst h1
          simp at hs
        · obtain ⟨u, hu, hr⟩ := respondUpdate_service r r'' id _ resp h hs
          exact ⟨id, req, u, rfl, rfl, hu, hr⟩
  · simp [hauth, web.Failure] at h
    obtain ⟨h1, _⟩ := h
    subst h1
    simp at hs

/-- C6: after a successful `Service.Update` the record returned, which is the record stored
under the identifier, carries the published flag of the payload, whatever the flag was before
and whatever the other payload fields are; and a partial update answered with status 200
returns and stores a record whose flag is the flag of the decoded body. -/
theorem update_published_flag (r r' : RepositoryImpl) (id : Int) (payload u : Product)
    (h : ServiceImpl.Update r id payload = (.ok u, r')) :
    u.IsPublished = payload.IsPublished ∧ r'.GetById id = .ok u ∧
    ∀ (env : Env) (token idParam : String) (req : ProductRequest) (resp : HttpResponse)
      (r'' : RepositoryImpl),
      handler.PartialUpdate env r token idParam (some req) = (resp, r'') → resp.status = 200 →
      ∃ id' u', env.Atoi idParam = some id' ∧ resp.body = .data u' ∧
        u'.IsPublished = req.IsPublished ∧ r''.GetById id' = .ok u' := by
  refine ⟨?_, ServiceUpdate_stored r r' id payload u h, ?_⟩
  · obtain ⟨_, t, _, _, _, _, hu, _⟩ := ServiceUpdate_ok r r' id payload u h
    rw [hu]
    exact (mergeProduct_fields t payload).2.2.2.2.2.2
  · intro env token idParam req resp r'' hp hs
    obtain ⟨id', req', u', hid, hreq, hu, hresp⟩ :=
      PartialUpdate_ok env r r'' token idParam (some req) resp hp hs
    cases hreq
    obtain ⟨_, t, _, _, _, _, hm, _⟩ := ServiceUpdate_ok r r'' id' _ u' hu
    refine ⟨id', u', hid, by rw [hresp]; rfl, ?_, ServiceUpdate_stored r r'' id' _ u' hu⟩
    rw [hm]
    exact (mergeProduct_fields t (handler.toUpdate req)).2.2.2.2.2.2

theorem update_published_flag_witness :
    ServiceImpl.Update { productList := sampleList } 1 partialPayload
      = (.ok pineappleUpdated, { productList := sampleList.set 0 pineappleUpdated }) ∧
    pineappleUpdated.IsPublished = partialPayload.IsPublished ∧
    RepositoryImpl.GetById { productList := sampleList.set 0 pineappleUpdated } 1
      = .ok pineappleUpdated :=
  have h := update_published_flag { productList := sampleList }
    { productList := sampleList.set 0 pineappleUpdated } 1 partialPayload pineappleUpdated
    (by decide)
  ⟨by decide, h.1, h.2.1⟩

/-- C7: when some stored record has the identifier and `q` is positive, the partial update
whose body carries only the quantity `q` succeeds with status 200; the record returned and
stored is the first record with the identifier with its quantity set to `q` and its published
flag set to false, every other field as before; it takes the place of the old record, and the
records before and after it are untouched. -/
theorem partial_update_quantity_only (env : Env) (r : RepositoryImpl) (id q : Int)
    (idParam : String) (hq : 0 < q) (hid : ∃ x ∈ r.productList, x.Id = id)
    (hparam : env.Atoi idParam = some id) :
    ∃ pre target post, r.productList = pre ++ target :: post ∧ target.Id = id ∧
      (∀ x ∈ pre, x.Id ≠ id) ∧ r.GetById id = .ok target ∧
      ServiceImpl.Update r id (handler.toUpdate (quantityOnly q))
        = (.ok { target with Quantity := q, IsPublished := false },
           { productList := pre ++ { target with Quantity := q, IsPublished := false } :: post }) ∧
      handler.PartialUpdate env r env.TOKEN idParam (some (quantityOnly q))
        = (web.Success 200 (.data { target with Quantity := q, IsPublished := false }),
           { productList := pre ++ { target with Quantity := q, IsPublished := false } :: post })
      := by
  obtain ⟨x, hx, hxid⟩ := hid
  rcases split_at_first id r.productList with habs | ⟨pre, t, post, hl, ht, hpre⟩
  · exact absurd hxid (habs x hx)
  · have hm : mergeProduct t (handler.toUpdate (quantityOnly q))
        = { t with Quantity := q, IsPublished := false } := by
      simp [mergeProduct, handler.toUpdate, quantityOnly, hq]
    have hcode : ¬ (({ t with Quantity := q, IsPublished := false } : Product).CodeValue
          ≠ t.CodeValue ∧ ∃ x ∈ r.productList,
            x.CodeValue = ({ t with Quantity := q, IsPublished := false } : Product).CodeValue) :=
      fun hc => hc.1 rfl
    have hsvc : ServiceImpl.Update r id (handler.toUpdate (quantityOnly q))
        = (.ok { t with Quantity := q, IsPublished := false },
           { productList := pre ++ { t with Quantity := q, IsPublished := false } :: post }) := by
      rw [ServiceUpdate_split r id _ pre post t hl ht hpre, hm,
        Update_stored r id _ pre post t hl ht hpre hcode]
      subst ht
      rfl
    refine ⟨pre, t, post, hl, ht, hpre, ?_, hsvc, ?_⟩
    · rw [RepositoryImpl.GetById, hl]
      exact getByIdLoop_split id pre post t ht hpre
    · have hexp : (handler.toUpdate (quantityOnly q)).Expiration = "" := rfl
      simp [handler.PartialUpdate, handler.isAuthorized, hparam, hexp, hsvc,
        handler.respondUpdate]

theorem partial_update_quantity_only_witness :
    (0 : Int) < 50 ∧ (∃ x ∈ sampleList, x.Id = 2) ∧ sampleEnv.Atoi "2" = some 2 ∧
    (handler.PartialUpdate sampleEnv { productList := sampleList } "12345" "2"
        (some (quantityOnly 50))).1.status = 200 := by
  have h := partial_update_quantity_only sampleEnv { productList := sampleList } 2 50 "2"
    (by decide) (by decide) (by decide)
  obtain ⟨pre, target, post, _, _, _, _, _, hp⟩ := h
  refine ⟨by decide, by decide, by decide, ?_⟩
  have : sampleEnv.TOKEN = "12345" := rfl
  rw [this] at hp
  rw [hp]
  rfl

/-! ## Code values -/

theorem pairwise_codes_replace (pre post : List Product) (t u : Product)
    (h : (pre ++ t :: post).Pairwise (fun a b => a.CodeValue ≠ b.CodeValue))
    (hu : u.CodeValue = t.CodeValue ∨ ∀ x ∈ pre ++ t :: post, x.CodeValue ≠ u.CodeValue) :
    (pre ++ u :: post).Pairwise (fun a b => a.CodeValue ≠ b.CodeValue) := by
  rw [List.pairwise_append, List.pairwise_cons] at h ⊢
  obtain ⟨hpre, ⟨htpost, hpost⟩, hcross⟩ := h
  refine ⟨hpre, ⟨?_, hpost⟩, ?_⟩
  · intro b hb
    rcases hu with hu | hu
    · rw [hu]; exact htpost b hb
    · exact fun he => hu b (by simp [hb]) he.symm
  · intro a ha b hb
    rcases List.mem_cons.mp hb with rfl | hb
    · rcases hu with hu | hu
      · rw [hu]; exact hcross a ha t (List.mem_cons_self t post)
      · exact hu a (by simp [ha])
    · exact hcross a ha b (List.mem_cons_of_mem t hb)

theorem pairwise_codes_remove (pre post : List Product) (t : Product)
    (h : (pre ++ t :: post).Pairwise (fun a b => a.CodeValue ≠ b.CodeValue)) :
    (pre ++ post).Pairwise (fun a b => a.CodeValue ≠ b.CodeValue) := by
  rw [List.pairwise_append, List.pairwise_cons] at h
  rw [List.pairwise_append]
  obtain ⟨hpre, ⟨_, hpost⟩, hcross⟩ := h
  exact ⟨hpre, hpost, fun a ha b hb => hcross a ha b (List.mem_cons_of_mem t hb)⟩

theorem Create_codes (r : RepositoryImpl) (p : Product)
    (h : r.productList.Pairwise (fun a b => a.CodeValue ≠ b.CodeValue)) :
    (r.Create p).2.productList.Pairwise (fun a b => a.CodeValue ≠ b.CodeValue) := by
  by_cases hc : ∃ x ∈ r.productList, x.CodeValue = p.CodeValue
  · rw [Create_taken r p hc]; exact h
  · have hf : ∀ x ∈ r.productList, x.CodeValue ≠ p.CodeValue :=
      fun x hx he => hc ⟨x, hx, he⟩
    rw [Create_fresh r p hf, List.pairwise_append]
    refine ⟨h, List.pairwise_singleton _ _, ?_⟩
    intro a ha b hb
    rw [List.mem_singleton] at hb
    subst hb
    exact hf a ha

theorem Delete_codes (r : RepositoryImpl) (id : Int)
    (h : r.productList.Pairwise (fun a b => a.CodeValue ≠ b.CodeValue)) :
    (r.Delete id).2.productList.Pairwise (fun a b => a.CodeValue ≠ b.CodeValue) := by
  rcases split_at_first id r.productList with habs | ⟨pre, t, post, hl, ht, hpre⟩
  · rw [Delete_absent r id habs]; exact h
  · rw [Delete_removed r id pre post t hl ht hpre]
    rw [hl] at h
    exact pairwise_codes_remove pre post t h

theorem RepoUpdate_codes (r : RepositoryImpl) (id : Int) (n : Product)
    (h : r.productList.Pairwise (fun a b => a.CodeValue ≠ b.CodeValue)) :
    (r.Update id n).2.productList.Pairwise (fun a b => a.CodeValue ≠ b.CodeValue) := by
  rcases split_at_first id r.productList with habs | ⟨pre, t, post, hl, ht, hpre⟩
  · rw [Update_absent r id n habs]; exact h
  · by_cases hc : n.CodeValue ≠ t.CodeValue ∧ ∃ x ∈ r.productList, x.CodeValue = n.CodeValue
    · rw [Update_rejected r id n pre post t hl ht hpre hc.1 hc.2]; exact h
    · rw [Update_stored r id n pre post t hl ht hpre hc]
      rw [hl] at h
      apply pairwise_codes_replace pre post t _ h
      by_cases he : n.CodeValue = t.CodeValue
      · exact Or.inl he
      · right
        intro x hx hxe
        exact hc ⟨he, x, by rw [hl]; exact hx, hxe⟩

theorem ServiceUpdate_codes (r : RepositoryImpl) (id : Int) (n : Product)
    (h : r.productList.Pairwise (fun a b => a.CodeValue ≠ b.CodeValue)) :
    (ServiceImpl.Update r id n).2.productList.Pairwise
      (fun a b => a.CodeValue ≠ b.CodeValue) := by
  rcases split_at_first id r.productList with habs | ⟨pre, t, post, hl, ht, hpre⟩
  · rw [ServiceUpdate_absent r id n habs]; exact h
  · rw [ServiceUpdate_split r id n pre post t hl ht hpre]
    exact RepoUpdate_codes r id _ h

theorem Call_run_codes (r : RepositoryImpl) (c : Call)
    (h : r.productList.Pairwise (fun a b => a.CodeValue ≠ b.CodeValue)) :
    (c.run r).productList.Pairwise (fun a b => a.CodeValue ≠ b.CodeValue) := by
  cases c with
  | create p =>
    show (ServiceImpl.Create r p).2.productList.Pairwise _
    rw [ServiceImpl.Create_eq]; exact Create_codes r p h
  | update id n => exact ServiceUpdate_codes r id n h
  | delete id =>
    show (ServiceImpl.Delete r id).2.productList.Pairwise _
    rw [ServiceImpl.Delete_eq]; exact Delete_codes r id h

theorem runCalls_codes (calls : List Call) (r : RepositoryImpl)
    (h : r.productList.Pairwise (fun a b => a.CodeValue ≠ b.CodeValue)) :
    (runCalls r calls).productList.Pairwise (fun a b => a.CodeValue ≠ b.CodeValue) := by
  induction calls generalizing r with
  | nil => exact h
  | cons c cs ih => exact ih (c.run r) (Call_run_codes r c h)

/-- C4: from a collection whose code values are pairwise distinct, every sequence of
`Service.Create`, `Service.Update` and `Service.Delete` calls, succeeding or failing, ends in
a collection whose code values are pairwise distinct; and an update whose resulting code value
is the current code value of its target is not rejected: it succeeds, in the service and in
the repository. -/
theorem code_values_stay_distinct (r : RepositoryImpl) (calls : List Call)
    (h : r.productList.Pairwise (fun a b => a.CodeValue ≠ b.CodeValue)) :
    (runCalls r calls).productList.Pairwise (fun a b => a.CodeValue ≠ b.CodeValue) ∧
    (∀ (r0 : RepositoryImpl) (id : Int) (payload target : Product),
      r0.GetById id = .ok target →
      (mergeProduct target payload).CodeValue = target.CodeValue →
      (ServiceImpl.Update r0 id payload).1 = .ok (mergeProduct target payload) ∧
      (ServiceImpl.Update r0 id payload).1 ≠ .error ErrInvalidCode) ∧
    (∀ (r0 : RepositoryImpl) (id : Int) (n target : Product),
      r0.GetById id = .ok target → n.CodeValue = target.CodeValue →
      (r0.Update id n).1 = .ok { n with Id := id } ∧
      (r0.Update id n).1 ≠ .error ErrInvalidCode) := by
  have hrepo : ∀ (r0 : RepositoryImpl) (id : Int) (n target : Product),
      r0.GetById id = .ok target → n.CodeValue = target.CodeValue →
      (r0.Update id n).1 = .ok { n with Id := id } := by
    intro r0 id n target hg hc
    obtain ⟨pre, post, hl, ht, hpre⟩ := (getByIdLoop_ok_iff id r0.productList target).mp hg
    rw [Update_stored r0 id n pre post target hl ht hpre (fun hx => hx.1 hc)]
  refine ⟨runCalls_codes calls r h, ?_, ?_⟩
  · intro r0 id payload target hg hc
    obtain ⟨pre, post, hl, ht, hpre⟩ := (getByIdLoop_ok_iff id r0.productList target).mp hg
    have hm : ({ mergeProduct target payload with Id := id } : Product)
        = mergeProduct target payload := by
      have hid := (mergeProduct_fields target payload).1
      rw [ht] at hid
      cases hmm : mergeProduct target payload
      rw [hmm] at hid
      simp only at hid
      subst hid
      rfl
    have hres : (ServiceImpl.Update r0 id payload).1 = .ok (mergeProduct target payload) := by
      rw [ServiceUpdate_split r0 id payload pre post target hl ht hpre,
        hrepo r0 id _ target hg hc, hm]
    refine ⟨hres, ?_⟩
    rw [hres]
    exact fun hx => by cases hx
  · intro r0 id n target hg hc
    refine ⟨hrepo r0 id n target hg hc, ?_⟩
    rw [hrepo r0 id n target hg hc]
    exact fun hx => by cases hx

theorem code_values_stay_distinct_witness :
    sampleList.Pairwise (fun a b => a.CodeValue ≠ b.CodeValue) ∧
    (runCalls { productList := sampleList } sampleCalls).productList.Pairwise
      (fun a b => a.CodeValue ≠ b.CodeValue) ∧
    (runCalls { productList := sampleList } sampleCalls).productList.map Product.CodeValue
      = ["COD9", "COD3", "COD4"] :=
  ⟨by decide,
    (code_values_stay_distinct { productList := sampleList } sampleCalls (by decide)).1,
    by decide⟩

/-! ## Identifiers that are not reused

The evaluations above that end with two records under one identifier start from a `Create`
that hands out an identifier still in use. Where that does not happen the round trips hold. -/

theorem create_then_get_of_unused_identifier (r : RepositoryImpl) (p : Product)
    (hcode : ∀ x ∈ r.productList, x.CodeValue ≠ p.CodeValue)
    (hid : ∀ x ∈ r.productList, x.Id ≠ (r.productList.length : Int) + 1) :
    (r.Create p).1 = .ok { p with Id := r.productList.length + 1 } ∧
    (r.Create p).2.GetById (r.productList.length + 1)
      = .ok { p with Id := r.productList.length + 1 } := by
  rw [Create_fresh r p hcode]
  refine ⟨rfl, ?_⟩
  exact getByIdLoop_split _ r.productList [] _ rfl hid

theorem delete_then_get_of_distinct_identifiers (r : RepositoryImpl) (id : Int)
    (hd : r.productList.Pairwise (fun a b => a.Id ≠ b.Id))
    (h : (r.Delete id).1 = none) :
    (r.Delete id).2.GetById id = .error ErrNotFound ∧
    (r.Delete id).2.Delete id = (some ErrNotFound, (r.Delete id).2) := by
  rcases split_at_first id r.productList with habs | ⟨pre, t, post, hl, ht, hpre⟩
  · rw [Delete_absent r id habs] at h
    cases h
  · rw [Delete_removed r id pre post t hl ht hpre]
    rw [hl, List.pairwise_append, List.pairwise_cons] at hd
    obtain ⟨_, ⟨htpost, _⟩, _⟩ := hd
    have habs : ∀ x ∈ pre ++ post, x.Id ≠ id := by
      intro x hx
      rcases List.mem_append.mp hx with hx | hx
      · exact hpre x hx
      · rw [← ht]; exact fun he => htpost x hx he.symm
    exact ⟨getByIdLoop_absent id _ habs, Delete_absent _ id habs⟩

/-! ## GetById -/

/-- C11: `GetById(id)`, in the repository and in the service, succeeds exactly when some stored
record has the identifier, and then returns the first stored record carrying it; when no stored
record has the identifier it fails with Not-Found, and the GET handler answers status 404 with
code "Not Found" and message "product not found". The method returns no new collection. -/
theorem get_by_id_contract (r : RepositoryImpl) (id : Int) :
    ServiceImpl.GetById r id = r.GetById id ∧
    ((∃ t, r.GetById id = .ok t) ↔ ∃ x ∈ r.productList, x.Id = id) ∧
    (∀ t, r.GetById id = .ok t ↔
      ∃ pre post, r.productList = pre ++ t :: post ∧ t.Id = id ∧ ∀ x ∈ pre, x.Id ≠ id) ∧
    (r.GetById id = .error ErrNotFound ↔ ∀ x ∈ r.productList, x.Id ≠ id) ∧
    (∀ e, r.GetById id = .error e → e = "product not found") ∧
    (∀ (env : Env) (idParam : String), env.Atoi idParam = some id →
      (∀ x ∈ r.productList, x.Id ≠ id) →
      handler.GetById env r idParam
        = { status := 404, body := .failure 404 "Not Found" "product not found" }) ∧
    (∀ (env : Env) (idParam : String) (t : Product), env.Atoi idParam = some id →
      r.GetById id = .ok t →
      handler.GetById env r idParam = { status := 200, body := .data t }) := by
  refine ⟨ServiceImpl.GetById_eq r id, ?_, ?_, ?_, ?_, ?_, ?_⟩
  · constructor
    · rintro ⟨t, ht⟩
      obtain ⟨pre, post, hl, hid, _⟩ := (getByIdLoop_ok_iff id r.productList t).mp ht
      exact ⟨t, by rw [hl]; simp, hid⟩
    · rintro ⟨x, hx, hxid⟩
      rcases split_at_first id r.productList with habs | ⟨pre, t, post, hl, ht, hpre⟩
      · exact absurd hxid (habs x hx)
      · exact ⟨t, (getByIdLoop_ok_iff id r.productList t).mpr ⟨pre, post, hl, ht, hpre⟩⟩
  · exact fun t => getByIdLoop_ok_iff id r.productList t
  · constructor
    · exact fun h => ((getByIdLoop_error_iff id r.productList _).mp h).2
    · exact fun h => getByIdLoop_absent id r.productList h
  · exact fun e h => ((getByIdLoop_error_iff id r.productList e).mp h).1
  · intro env idParam hid habs
    have hg : r.GetById id = .error ErrNotFound := getByIdLoop_absent id r.productList habs
    simp only [handler.GetById, hid, ServiceImpl.GetById_eq, hg]
    rfl
  · intro env idParam t hid hg
    simp only [handler.GetById, hid, ServiceImpl.GetById_eq, hg]
    rfl

/-! ## GetByPriceGt -/

theorem getByPriceGtLoop_eq (price : Float64) (acc l : List Product) :
    getByPriceGtLoop price acc l = acc ++ l.filter (fun p => priceGreater p.Price price) := by
  induction l generalizing acc with
  | nil => simp [getByPriceGtLoop]
  | cons a l ih =>
    by_cases h : priceGreater a.Price price = true
    · simp [getByPriceGtLoop, h, ih]
    · simp [getByPriceGtLoop, h, ih]

theorem GetByPriceGt_eq_filter (r : RepositoryImpl) (price : Float64) :
    r.GetByPriceGt price = r.productList.filter (fun p => priceGreater p.Price price) := by
  rw [RepositoryImpl.GetByPriceGt, getByPriceGtLoop_eq, List.nil_append]

/-- C12: `Repository.GetByPriceGt(b)` returns the stored records whose price is strictly greater
than the bound, in collection order (a record priced exactly at a finite bound is left out), and
returns no new collection; `Service.GetByPriceGt(b)` returns the same sequence when it is not
empty and fails with "no products found", status 404 from the handler, exactly when no stored
record has a price strictly greater than the bound. -/
theorem get_by_price_gt_contract (r : RepositoryImpl) (b : Float64) :
    r.GetByPriceGt b = r.productList.filter (fun p => priceGreater p.Price b) ∧
    (∀ q : ℚ, r.GetByPriceGt (.finite q)
      = r.productList.filter (fun p => decide (p.Price > q))) ∧
    (∀ (q : ℚ) (p : Product), p.Price = q → p ∉ r.GetByPriceGt (.finite q)) ∧
    (ServiceImpl.GetByPriceGt r b = .error "no products found" ↔
      ∀ p ∈ r.productList, priceGreater p.Price b = false) ∧
    ((∃ p ∈ r.productList, priceGreater p.Price b = true) →
      ServiceImpl.GetByPriceGt r b = .ok (r.GetByPriceGt b)) ∧
    (∀ (env : Env) (stringPriceGt : String), env.ParseFloat stringPriceGt = some b →
      (∀ p ∈ r.productList, priceGreater p.Price b = false) →
      handler.GetByPriceGt env r stringPriceGt
        = { status := 404, body := .failure 404 "Not Found" "no products found" }) ∧
    (∀ (env : Env) (stringPriceGt : String), env.ParseFloat stringPriceGt = some b →
      (∃ p ∈ r.productList, priceGreater p.Price b = true) →
      handler.GetByPriceGt env r stringPriceGt
        = { status := 200, body := .dataList (r.GetByPriceGt b) }) := by
  have hempty : (r.GetByPriceGt b).length = 0 ↔
      ∀ p ∈ r.productList, priceGreater p.Price b = false := by
    rw [GetByPriceGt_eq_filter, List.length_eq_zero, List.filter_eq_nil_iff]
    simp
  have hfail : (∀ p ∈ r.productList, priceGreater p.Price b = false) →
      ServiceImpl.GetByPriceGt r b = .error ErrNoProducts := by
    intro h
    simp only [ServiceImpl.GetByPriceGt, hempty.mpr h, if_true]
  have hok : (∃ p ∈ r.productList, priceGreater p.Price b = true) →
      ServiceImpl.GetByPriceGt r b = .ok (r.GetByPriceGt b) := by
    rintro ⟨p, hp, hgt⟩
    have hne : ¬ (r.GetByPriceGt b).length = 0 := by
      intro h0
      have := hempty.mp h0 p hp
      rw [hgt] at this
      cases this
    simp only [ServiceImpl.GetByPriceGt, hne, if_false]
  refine ⟨GetByPriceGt_eq_filter r b, ?_, ?_, ?_, hok, ?_, ?_⟩
  · intro q
    rw [GetByPriceGt_eq_filter]
    rfl
  · intro q p hp hmem
    rw [GetByPriceGt_eq_filter, List.mem_filter] at hmem
    have := hmem.2
    simp [priceGreater, hp] at this
  · constructor
    · intro h
      by_contra hne
      push_neg at hne
      obtain ⟨p, hp, hgt⟩ := hne
      rw [hok ⟨p, hp, by simpa using hgt⟩] at h
      cases h
    · exact hfail
  · intro env s hs h
    simp only [handler.GetByPriceGt, hs, hfail h]
    rfl
  · intro env s hs h
    simp only [handler.GetByPriceGt, hs, hok h]
    rfl

/-! ## Create twice with one code value -/

theorem code_stored_after_Create (r : RepositoryImpl) (p : Product) :
    ∃ x ∈ (r.Create p).2.productList, x.CodeValue = p.CodeValue := by
  by_cases hc : ∃ x ∈ r.productList, x.CodeValue = p.CodeValue
  · rw [Create_taken r p hc]; exact hc
  · have hf : ∀ x ∈ r.productList, x.CodeValue ≠ p.CodeValue :=
      fun x hx he => hc ⟨x, hx, he⟩
    rw [Create_fresh r p hf]
    exact ⟨{ p with Id := r.productList.length + 1 }, by simp, rfl⟩

/-- C13: when `p` and `q` carry one code value, then after `Create(p)`, whether it succeeded or
failed, `Create(q)` fails with Invalid-Code in the repository and in the service and leaves the
collection as the first call left it; the POST handler, given a body that decodes to `q` with
an accepted expiration date, answers status 400 with message "invalid product code value". -/
theorem create_same_code_twice (r : RepositoryImpl) (p q : Product)
    (h : p.CodeValue = q.CodeValue) :
    (r.Create p).2.Create q = (.error "invalid product code value", (r.Create p).2) ∧
    ServiceImpl.Create (ServiceImpl.Create r p).2 q
      = (.error "invalid product code value", (ServiceImpl.Create r p).2) ∧
    (∀ env : Env, env.validateDate q.Expiration = none →
      handler.Create env (ServiceImpl.Create r p).2 (some q)
        = ({ status := 400, body := .failure 400 "Bad Request" "invalid product code value" },
           (ServiceImpl.Create r p).2)) := by
  have hrepo : (r.Create p).2.Create q = (.error ErrInvalidCode, (r.Create p).2) := by
    apply Create_taken
    rw [← h]
    exact code_stored_after_Create r p
  have hsvc : ServiceImpl.Create (ServiceImpl.Create r p).2 q
      = (.error ErrInvalidCode, (ServiceImpl.Create r p).2) := by
    rw [ServiceImpl.Create_eq, ServiceImpl.Create_eq]
    exact hrepo
  refine ⟨hrepo, hsvc, ?_⟩
  intro env hd
  simp only [handler.Create, hd, hsvc]
  rfl

theorem create_same_code_twice_witness :
    samplePayload.CodeValue = ({ samplePayload with Name := "Papaya" } : Product).CodeValue ∧
    (RepositoryImpl.Create { productList := sampleList } samplePayload).1
      = .ok { samplePayload with Id := 4 } ∧
    (RepositoryImpl.Create { productList := sampleList } samplePayload).2.Create
        { samplePayload with Name := "Papaya" }
      = (.error "invalid product code value",
         (RepositoryImpl.Create { productList := sampleList } samplePayload).2) :=
  ⟨rfl, by decide,
    (create_same_code_twice { productList := sampleList } samplePayload
      { samplePayload with Name := "Papaya" } rfl).1⟩

/-! ## The token checks -/

/-- C14: a request to one of the four routes of the protected group whose token header is
absent (empty) or differs from the secret is answered by the middleware with status 401, code
"Unauthorized" and message "invalid token", whatever the route, the path identifier and the
body, and the collection is the one before the request. -/
theorem unauthorized_protected_routes (env : Env) (r : RepositoryImpl) (route : Route)
    (req : Request) (h : req.token = "" ∨ req.token ≠ env.TOKEN) :
    protectedProductGroup env r route req
      = ({ status := 401, body := .failure 401 "Unauthorized" "invalid token" }, r) := by
  have hm : middleware.TokenValidator env req.token
      = some (web.Failure 401 middleware.ErrInvalidToken) := by
    unfold middleware.TokenValidator
    rcases h with h | h
    · rw [if_pos h]
    · by_cases he : req.token = ""
      · rw [if_pos he]
      · rw [if_neg he, if_pos h]
  simp only [protectedProductGroup, hm]
  rfl

theorem unauthorized_protected_routes_witness :
    (("" : String) = "" ∨ ("" : String) ≠ sampleEnv.TOKEN) ∧
    protectedProductGroup sampleEnv { productList := sampleList } .deleteId
        { token := "", idParam := "1", product := none, productRequest := none }
      = ({ status := 401, body := .failure 401 "Unauthorized" "invalid token" },
         { productList := sampleList }) :=
  ⟨Or.inl rfl,
    unauthorized_protected_routes sampleEnv { productList := sampleList } .deleteId
      { token := "", idParam := "1", product := none, productRequest := none } (Or.inl rfl)⟩

/-- C15 (as stated): with no secret configured and no token header, both read as the empty
string, the header does not differ from the secret; the inline check accepts and the middleware
rejects with "invalid token". -/
theorem token_checks_differ_without_secret :
    handler.isAuthorized { sampleEnv with TOKEN := "" } "" = none ∧
    middleware.TokenValidator { sampleEnv with TOKEN := "" } ""
      = some { status := 401, body := .failure 401 "Unauthorized" "invalid token" } := by
  constructor
  · rfl
  · rfl

/-- C15 (amended): the inline check `isAuthorized` is the literal comparison of the header with
the secret and rejects with "invalid token" exactly when they differ; the middleware
`TokenValidator` rejects with status 401 and "invalid token" exactly when the header is empty
or differs from the secret; the two decisions agree on every input except the one where header
and secret are both empty. -/
theorem token_checks_compared (env : Env) (token : String) :
    handler.isAuthorized env token = specTokenCheck env.TOKEN token ∧
    (handler.isAuthorized env token = some "invalid token" ↔ token ≠ env.TOKEN) ∧
    (handler.isAuthorized env token = none ↔ token = env.TOKEN) ∧
    (middleware.TokenValidator env token
        = some { status := 401, body := .failure 401 "Unauthorized" "invalid token" } ↔
      (token = "" ∨ token ≠ env.TOKEN)) ∧
    (middleware.TokenValidator env token = none ↔ (token ≠ "" ∧ token = env.TOKEN)) ∧
    (((middleware.TokenValidator env token).isSome = (handler.isAuthorized env token).isSome) ↔
      ¬ (token = "" ∧ env.TOKEN = "")) := by
  have hfail : web.Failure 401 middleware.ErrInvalidToken
      = { status := 401, body := .failure 401 "Unauthorized" "invalid token" } := rfl
  by_cases h1 : token = "" <;> by_cases h2 : token = env.TOKEN
  · have h3 : env.TOKEN = "" := by rw [← h2, h1]
    simp [handler.isAuthorized, specTokenCheck, middleware.TokenValidator, hfail, h1, h3]
  · have h3 : ¬ env.TOKEN = "" := fun h => h2 (by rw [h1, h])
    have h4 : ¬ "" = env.TOKEN := fun h => h3 h.symm
    simp [handler.isAuthorized, specTokenCheck, middleware.TokenValidator, hfail, h1, h3, h4]
  · subst h2
    simp [handler.isAuthorized, specTokenCheck, middleware.TokenValidator, hfail, h1]
  · simp [handler.isAuthorized, specTokenCheck, middleware.TokenValidator, hfail, h1, h2]

/-! ## validateDate -/

/-- The three outcomes of `validateDate`: a string that does not parse is rejected as a format
error, a date before the clock reading is rejected as not after the current date, and a date
at or after the clock reading is accepted. -/
theorem validateDate_cases (now : Int) (date : String) :
    (timeParse date = none →
      handler.validateDate now date = (false, some "invalid expiration date format")) ∧
    (∀ t, timeParse date = some t → t < now →
      handler.validateDate now date
        = (false, some "expiration date must be after current date")) ∧
    (∀ t, timeParse date = some t → now ≤ t → handler.validateDate now date = (true, none)) := by
  refine ⟨?_, ?_, ?_⟩
  · intro h
    simp [handler.validateDate, h]
  · intro t h hlt
    simp [handler.validateDate, h, hlt]
  · intro t h hle
    simp [handler.validateDate, h, not_lt.mpr hle]

/-- With the clock at 4 November 2026, 00:00 UTC, "01/01/2000" is rejected as not after the
current date, "31/12/2099" is accepted and "2099-12-31" is rejected as a format error. -/
theorem validateDate_samples :
    handler.validateDate (startOfDay 2026 11 4) "01/01/2000"
      = (false, some "expiration date must be after current date") ∧
    handler.validateDate (startOfDay 2026 11 4) "31/12/2099" = (true, none) ∧
    handler.validateDate (startOfDay 2026 11 4) "2099-12-31"
      = (false, some "invalid expiration date format") := by
  decide

/-- C16: with the clock reading exactly 1 January 2030, 00:00:00 UTC, the string "01/01/2030"
parses to that same instant, which is not strictly after the clock reading, and `validateDate`
accepts it with no error. -/
theorem validate_date_at_clock_reading :
    timeParse "01/01/2030" = some 1893456000000000000 ∧
    ¬ ((1893456000000000000 : Int) < 1893456000000000000) ∧
    handler.validateDate 1893456000000000000 "01/01/2030" = (true, none) := by
  decide

/-! ## Bad and unknown identifiers -/

theorem TokenValidator_pass (env : Env) (token : String) (htok : token = env.TOKEN)
    (hne : token ≠ "") : middleware.TokenValidator env token = none := by
  unfold middleware.TokenValidator
  rw [if_neg hne, if_neg (fun h => h htok)]

theorem isAuthorized_pass (env : Env) (token : String) (htok : token = env.TOKEN) :
    handler.isAuthorized env token = none := by
  simp [handler.isAuthorized, htok]

/-- What the routes on `/products/:id` answer in terms of the result of the reader of
identifiers: status 400 when it returns an error, status 404 when it returns an identifier that
no stored record carries. -/
theorem routes_by_parsed_id (env : Env) (r : RepositoryImpl) (req : Request)
    (htok : req.token = env.TOKEN) (hne : req.token ≠ "") :
    (env.Atoi req.idParam = none →
      handler.GetById env r req.idParam
        = { status := 400, body := .failure 400 "Bad Request" "invalid product id" } ∧
      ∀ route, route ≠ Route.postNew →
        protectedProductGroup env r route req
          = ({ status := 400, body := .failure 400 "Bad Request" "invalid product id" }, r)) ∧
    (∀ id, env.Atoi req.idParam = some id → (∀ x ∈ r.productList, x.Id ≠ id) →
      handler.GetById env r req.idParam
        = { status := 404, body := .failure 404 "Not Found" "product not found" } ∧
      protectedProductGroup env r .deleteId req
        = ({ status := 404, body := .failure 404 "Not Found" "product not found" }, r) ∧
      (∀ p, req.product = some p → env.validateDate p.Expiration = none →
        protectedProductGroup env r .putId req
          = ({ status := 404, body := .failure 404 "Not Found" "product not found" }, r)) ∧
      (∀ pr, req.productRequest = some pr →
        (pr.Expiration = "" ∨ env.validateDate pr.Expiration = none) →
        protectedProductGroup env r .patchId req
          = ({ status := 404, body := .failure 404 "Not Found" "product not found" }, r))) := by
  have hm := TokenValidator_pass env req.token htok hne
  have ha := isAuthorized_pass env req.token htok
  constructor
  · intro hbad
    constructor
    · simp only [handler.GetById, hbad]
      rfl
    · intro route hroute
      cases route with
      | postNew => exact absurd rfl hroute
      | putId =>
        simp only [protectedProductGroup, hm, handler.FullUpdate, ha, hbad]
        rfl
      | patchId =>
        simp only [protectedProductGroup, hm, handler.PartialUpdate, ha, hbad]
        rfl
      | deleteId =>
        simp only [protectedProductGroup, hm, handler.Delete, ha, hbad]
        rfl
  · intro id hid habs
    have hg : r.GetById id = .error ErrNotFound := getByIdLoop_absent id r.productList habs
    refine ⟨?_, ?_, ?_, ?_⟩
    · simp only [handler.GetById, hid, ServiceImpl.GetById_eq, hg]
      rfl
    · simp only [protectedProductGroup, hm, handler.Delete, ha, hid, ServiceImpl.Delete_eq,
        Delete_absent r id habs]
      rfl
    · intro p hp hd
      simp only [protectedProductGroup, hm, handler.FullUpdate, ha, hid, hp, hd,
        ServiceUpdate_absent r id p habs]
      rfl
    · intro pr hpr hd
      have hgate : (if (handler.toUpdate pr).Expiration ≠ "" then
          env.validateDate (handler.toUpdate pr).Expiration else none) = none := by
        rcases hd with hd | hd
        · have : (handler.toUpdate pr).Expiration = "" := hd
          simp [this]
        · have : (handler.toUpdate pr).Expiration = pr.Expiration := rfl
          rw [this, hd]
          simp
      simp only [protectedProductGroup, hm, handler.PartialUpdate, ha, hid, hpr, hgate,
        ServiceUpdate_absent r id _ habs]
      rfl

/-! ## The success branch of the update handlers -/

theorem FullUpdate_ok (env : Env) (r r'' : RepositoryImpl) (token idParam : String)
    (body : Option Product) (resp : HttpResponse)
    (h : handler.FullUpdate env r token idParam body = (resp, r''))
    (hs : resp.status = 200) :
    ∃ id p u, env.Atoi idParam = some id ∧ body = some p ∧
      ServiceImpl.Update r id p = (.ok u, r'') ∧ resp = web.Success 200 (.data u) := by
  unfold handler.FullUpdate at h
  rcases hauth : handler.isAuthorized env token with _ | err
  · rcases hid : env.Atoi idParam with _ | id
    · simp [hauth, hid, web.Failure] at h
      obtain ⟨h1, _⟩ := h
      subst h1
      simp at hs
    · rcases body with _ | p
      · simp [hauth, hid, web.Failure] at h
        obtain ⟨h1, _⟩ := h
        subst h1
        simp at hs
      · simp only [hauth, hid] at h
        split at h
        · simp [web.Failure] at h
          obtain ⟨h1, _⟩ := h
          subst h1
          simp at hs
        · obtain ⟨u, hu, hr⟩ := respondUpdate_service r r'' id _ resp h hs
          exact ⟨id, p, u, rfl, rfl, hu, hr⟩
  · simp [hauth, web.Failure] at h
    obtain ⟨h1, _⟩ := h
    subst h1
    simp at hs

/-- C18: `Service.Update` fails only with Not-Found or Invalid-Code and then leaves the
collection as it was, so the tail of the update handlers never answers 200 on an error; a
`FullUpdate` or `PartialUpdate` answered with status 200 comes from a `Service.Update` that
succeeded, and the record in the response is the record stored under the identifier in the
collection after the request. -/
theorem update_ok_only_when_applied (env : Env) (r : RepositoryImpl) :
    (∀ (id : Int) (payload : Product) (e : String) (r' : RepositoryImpl),
      ServiceImpl.Update r id payload = (.error e, r') →
      (e = "product not found" ∨ e = "invalid product code value") ∧ r' = r ∧
      (handler.respondUpdate (ServiceImpl.Update r id payload)).1.status ≠ 200) ∧
    (∀ (token idParam : String) (body : Option Product) (resp : HttpResponse)
      (r'' : RepositoryImpl),
      handler.FullUpdate env r token idParam body = (resp, r'') → resp.status = 200 →
      ∃ id p u, env.Atoi idParam = some id ∧ body = some p ∧
        ServiceImpl.Update r id p = (.ok u, r'') ∧ resp.body = .data u ∧
        r''.GetById id = .ok u) ∧
    (∀ (token idParam : String) (body : Option ProductRequest) (resp : HttpResponse)
      (r'' : RepositoryImpl),
      handler.PartialUpdate env r token idParam body = (resp, r'') → resp.status = 200 →
      ∃ id pr u, env.Atoi idParam = some id ∧ body = some pr ∧
        ServiceImpl.Update r id (handler.toUpdate pr) = (.ok u, r'') ∧ resp.body = .data u ∧
        r''.GetById id = .ok u) := by
  refine ⟨?_, ?_, ?_⟩
  · intro id payload e r' h
    obtain ⟨he, hr⟩ := ServiceUpdate_error r r' id payload e h
    refine ⟨he, hr, ?_⟩
    rw [h]
    rcases he with rfl | rfl
    · simp [handler.respondUpdate, handler.ErrNotFound, ErrNotFound, web.Failure]
    · simp [handler.respondUpdate, handler.ErrNotFound, handler.ErrInvalidCode, ErrInvalidCode,
        web.Failure]
  · intro token idParam body resp r'' h hs
    obtain ⟨id, p, u, hid, hb, hu, hr⟩ := FullUpdate_ok env r r'' token idParam body resp h hs
    exact ⟨id, p, u, hid, hb, hu, by rw [hr]; rfl, ServiceUpdate_stored r r'' id p u hu⟩
  · intro token idParam body resp r'' h hs
    obtain ⟨id, pr, u, hid, hb, hu, hr⟩ :=
      PartialUpdate_ok env r r'' token idParam body resp h hs
    exact ⟨id, pr, u, hid, hb, hu, by rw [hr]; rfl, ServiceUpdate_stored r r'' id _ u hu⟩

/-! ## Service.Update twice -/

theorem mergeProduct_idem (t n : Product) :
    mergeProduct (mergeProduct t n) n = mergeProduct t n := by
  by_cases h1 : n.Name = "" <;> by_cases h2 : n.Quantity > 0 <;>
    by_cases h3 : n.CodeValue = "" <;> by_cases h4 : n.Expiration = "" <;>
    by_cases h5 : n.Price > 0 <;>
    simp [mergeProduct, h1, h2, h3, h4, h5]

/-- C19: `Service.Update(id, payload)` made a second time on the collection the first call left
returns what the first call returned, the same record or the same error, and leaves the
collection as the first call left it. -/
theorem service_update_idempotent (r : RepositoryImpl) (id : Int) (payload : Product) :
    ServiceImpl.Update (ServiceImpl.Update r id payload).2 id payload
      = ServiceImpl.Update r id payload := by
  rcases h : ServiceImpl.Update r id payload with ⟨e | u, r1⟩
  · obtain ⟨_, hr⟩ := ServiceUpdate_error r r1 id payload e h
    subst hr
    exact h
  · obtain ⟨pre, t, post, _, ht, hpre, hu, hl1⟩ := ServiceUpdate_ok r r1 id payload u h
    have hid : u.Id = id := by rw [hu, (mergeProduct_fields t payload).1, ht]
    have hm : mergeProduct u payload = u := by rw [hu]; exact mergeProduct_idem t payload
    show ServiceImpl.Update r1 id payload = (.ok u, r1)
    rw [ServiceUpdate_split r1 id payload pre post u hl1 hid hpre, hm,
      Update_stored r1 id u pre post u hl1 hid hpre (fun hc => hc.1 rfl)]
    have hu' : ({ u with Id := id } : Product) = u := by
      subst hid
      rfl
    rw [hu']
    cases r1
    simp only at hl1
    rw [hl1]

/-! ## strconv.Atoi and decimal integers -/

theorem atoiDigits_eq (digits : List Char) (n : Nat) :
    atoiDigits digits n =
      if digits.all Char.isDigit = true then
        some (digits.foldl (fun n ch => n * 10 + (ch.toNat - 48)) n)
      else none := by
  induction digits generalizing n with
  | nil => simp [atoiDigits]
  | cons ch rest ih =>
    by_cases h : ch.isDigit = true
    · simp [atoiDigits, h, ih]
    · simp [atoiDigits, h]

/-- The library function returns a value exactly on the decimal integers that fit the 64-bit
`int`, and the value is the integer the string denotes. -/
theorem Atoi_eq (s : String) :
    strconv.Atoi s =
      if isDecimalInteger s = true ∧ inIntRange (decimalValue s) = true then
        some (decimalValue s)
      else none := by
  unfold strconv.Atoi isDecimalInteger decimalValue digitsValue
  rcases signAndDigits s.data with ⟨neg, digits⟩
  simp only
  by_cases hd : digits = []
  · simp [hd]
  · rw [if_neg hd, atoiDigits_eq]
    have hne : digits.isEmpty = false := by
      cases digits with
      | nil => exact absurd rfl hd
      | cons a l => rfl
    by_cases hall : digits.all Char.isDigit = true
    · simp only [hall, if_true, hne, Bool.not_false, Bool.true_and, true_and]
    · simp [hall]

/-- C17 (as stated): the path segment "99999999999999999999" is a decimal integer that no
stored record carries, and with a valid token GET and DELETE answer status 400 with code
"Bad Request", not 404: the integer does not fit the 64-bit `int` and `strconv.Atoi` rejects
it. -/
theorem out_of_range_id_is_bad_request :
    isDecimalInteger "99999999999999999999" = true ∧
    decimalValue "99999999999999999999" = 99999999999999999999 ∧
    (∀ x ∈ sampleList, x.Id ≠ 99999999999999999999) ∧
    handler.GetById liveEnv { productList := sampleList } "99999999999999999999"
      = { status := 400, body := .failure 400 "Bad Request" "invalid product id" } ∧
    protectedProductGroup liveEnv { productList := sampleList } .deleteId
        { token := "12345", idParam := "99999999999999999999", product := none,
          productRequest := none }
      = ({ status := 400, body := .failure 400 "Bad Request" "invalid product id" },
         { productList := sampleList }) := by
  decide

/-- C17 (amended): with `strconv.Atoi` as the reader of identifiers and a valid token, when the
path segment is not a decimal integer, or is one that does not fit the 64-bit `int`, GET, PUT,
PATCH and DELETE on `/products/:id` answer status 400 with code "Bad Request" whatever the
body; when it is a decimal integer that fits and that no stored record carries, GET and DELETE
answer status 404 with code "Not Found", and so do PUT with a body that decodes and has an
accepted expiration date and PATCH with a body that decodes and has an empty or accepted
expiration date. In each case the collection is the one before the request. -/
theorem id_segment_contract (env : Env) (r : RepositoryImpl) (req : Request)
    (hAtoi : env.Atoi = strconv.Atoi) (htok : req.token = env.TOKEN) (hne : req.token ≠ "") :
    ((isDecimalInteger req.idParam = false ∨ inIntRange (decimalValue req.idParam) = false) →
      handler.GetById env r req.idParam
        = { status := 400, body := .failure 400 "Bad Request" "invalid product id" } ∧
      ∀ route, route ≠ Route.postNew →
        protectedProductGroup env r route req
          = ({ status := 400, body := .failure 400 "Bad Request" "invalid product id" }, r)) ∧
    (isDecimalInteger req.idParam = true → inIntRange (decimalValue req.idParam) = true →
      (∀ x ∈ r.productList, x.Id ≠ decimalValue req.idParam) →
      handler.GetById env r req.idParam
        = { status := 404, body := .failure 404 "Not Found" "product not found" } ∧
      protectedProductGroup env r .deleteId req
        = ({ status := 404, body := .failure 404 "Not Found" "product not found" }, r) ∧
      (∀ p, req.product = some p → env.validateDate p.Expiration = none →
        protectedProductGroup env r .putId req
          = ({ status := 404, body := .failure 404 "Not Found" "product not found" }, r)) ∧
      (∀ pr, req.productRequest = some pr →
        (pr.Expiration = "" ∨ env.validateDate pr.Expiration = none) →
        protectedProductGroup env r .patchId req
          = ({ status := 404, body := .failure 404 "Not Found" "product not found" }, r))) := by
  have hroutes := routes_by_parsed_id env r req htok hne
  constructor
  · intro hbad
    apply hroutes.1
    rw [hAtoi, Atoi_eq, if_neg]
    rintro ⟨h1, h2⟩
    rcases hbad with hbad | hbad
    · rw [h1] at hbad; cases hbad
    · rw [h2] at hbad; cases hbad
  · intro h1 h2 habs
    apply hroutes.2 (decimalValue req.idParam) _ habs
    rw [hAtoi, Atoi_eq, if_pos ⟨h1, h2⟩]

theorem id_segment_contract_witness :
    liveEnv.Atoi = strconv.Atoi ∧ ("12345" : String) = liveEnv.TOKEN ∧
    ("12345" : String) ≠ "" ∧ isDecimalInteger "badId" = false ∧
    protectedProductGroup liveEnv { productList := sampleList } .putId
        { token := "12345", idParam := "badId", product := none, productRequest := none }
      = ({ status := 400, body := .failure 400 "Bad Request" "invalid product id" },
         { productList := sampleList }) ∧
    isDecimalInteger "9999" = true ∧ decimalValue "9999" = 9999 ∧
    protectedProductGroup liveEnv { productList := sampleList } .deleteId
        { token := "12345", idParam := "9999", product := none, productRequest := none }
      = ({ status := 404, body := .failure 404 "Not Found" "product not found" },
         { productList := sampleList }) :=
  ⟨rfl, rfl, by decide, by decide,
    ((id_segment_contract liveEnv { productList := sampleList }
      { token := "12345", idParam := "badId", product := none, productRequest := none }
      rfl rfl (by decide)).1 (Or.inl (by decide))).2 .putId (by decide),
    by decide, by decide,
    ((id_segment_contract liveEnv { productList := sampleList }
      { token := "12345", idParam := "9999", product := none, productRequest := none }
      rfl rfl (by decide)).2 (by decide) (by decide) (by decide)).2.1⟩

end ProductApi
